import Mathlib

/-!
Shallow embedding of the ASARCO drilling-fleet KPI scripts
(`analisis_tiempos_operativos.py` and `analisis_brecha_2025_vs_feb2026.py`).

Python floats are modelled as exact rationals (`ℚ`), Python `None` as
`Option`, Python dicts as insertion-ordered association lists, and Python's
stable `sorted` as `List.mergeSort`.  String fields that the scripts obtain
from `csv.DictReader` are carried as plain `String`s; timestamp and date
fields are carried as the *results* of the scripts' fixed-format parsers
(`parse_datetime` / `parse_date` / `to_float`), i.e. as `Option` values,
since those parsers only turn text into numbers and return `None` on
failure.  Dates are represented as proleptic-Gregorian day numbers
(days since 1970-01-01) and timestamps as seconds since the same epoch,
with the civil-calendar conversion spelled out below.
-/

/-- Model of `normalize_text`'s per-character effect: Python lowercases the
string and then strips combining marks after NFKD decomposition.  For the
Latin repertoire the scripts compare against (Spanish keywords such as
"Mantención", "Programada", "Efectivo", "Reserva") this amounts to mapping
each accented vowel or eñe, in either case, to its lowercase base letter,
and ASCII-lowercasing everything else. -/
def stripAccentLower (c : Char) : Char :=
  if c = 'á' ∨ c = 'Á' then 'a'
  else if c = 'é' ∨ c = 'É' then 'e'
  else if c = 'í' ∨ c = 'Í' then 'i'
  else if c = 'ó' ∨ c = 'Ó' then 'o'
  else if c = 'ú' ∨ c = 'Ú' ∨ c = 'ü' ∨ c = 'Ü' then 'u'
  else if c = 'ñ' ∨ c = 'Ñ' then 'n'
  else c.toLower

/-- Whitespace test used by the model of Python's `str.strip()`. -/
def isSpaceChar (c : Char) : Bool :=
  c = ' ' ∨ c = '\t' ∨ c = '\n' ∨ c = '\r'

/-- Model of Python's `str.strip()` on the character list of a string. -/
def trimList (l : List Char) : List Char :=
  ((l.dropWhile isSpaceChar).reverse.dropWhile isSpaceChar).reverse

/-- Model of Python's `str.startswith(p)` on character lists. -/
def listStartsWith (l p : List Char) : Bool :=
  l.take p.length = p

/-- `normalize_text(value)`: `(value or "").strip().lower()` followed by
NFKD decomposition and removal of combining marks (identical definition in
both scripts). -/
def normalize_text (value : Option String) : String :=
  String.mk ((trimList (value.getD "").toList).map stripAccentLower)

/-- The five mutually exclusive classification buckets returned (as string
literals) by `classify_bucket` in both scripts. -/
inductive Bucket where
  | efectivo
  | reserva
  | mant_programada
  | mant_no_programada
  | otras
deriving DecidableEq, Repr

/-- An input event row, at the level the scripts see it after CSV reading
and field parsing.  `time`, `endTime` hold `parse_datetime` results
(seconds since epoch), `workDayStarted` holds the `parse_date` result
(day number), `durationSeconds` holds the `to_float` result applied to the
`Duration` column; the remaining fields are the raw text columns. -/
structure EventRow where
  rigName : String
  time : Option Int
  endTime : Option Int
  durationSeconds : Option ℚ
  shortCode : String
  plannedCodeName : String
  onlyCodeName : String
  onlyCodeNumber : String
  codeName : String
  delayData : String
  shiftName : String
  workDayStarted : Option Int
  drillPlan : String
deriving Repr

/-- `classify_bucket(row)` (identical in both scripts): first-match-wins on
the normalized `ShortCode` / `PlannedCodeName` / `OnlyCodeName` columns. -/
def classify_bucket (row : EventRow) : Bucket :=
  let short_code := normalize_text (some row.shortCode)
  let planned := normalize_text (some row.plannedCodeName)
  let only_code_name := normalize_text (some row.onlyCodeName)
  if short_code = "efectivo" ∨ listStartsWith only_code_name.toList "efectivo_".toList then .efectivo
  else if short_code = "reserva" then .reserva
  else if short_code = "mantencion" then
    (if planned = "programada" then .mant_programada else .mant_no_programada)
  else .otras

/-- Model of Python's `str.strip()` packaged as a string-to-string map. -/
def stripStr (s : String) : String :=
  String.mk (trimList s.toList)

/-- `build_code_label(row)` (identical in both scripts): prefer
`"{number}_{name}"`, then the name, then the alternate name, then the
free-text delay descriptor, then the sentinel. -/
def build_code_label (row : EventRow) : String :=
  let code_number := stripStr row.onlyCodeNumber
  let code_name := stripStr row.onlyCodeName
  let code_name_alt := stripStr row.codeName
  let delay_data := stripStr row.delayData
  if code_number ≠ "" ∧ code_name ≠ "" then code_number ++ "_" ++ code_name
  else if code_name ≠ "" then code_name
  else if code_name_alt ≠ "" then code_name_alt
  else if delay_data ≠ "" then delay_data
  else "SIN_CODIGO"

/-- Convenience constructor for an event row with the given classification
columns and all other fields empty. -/
def mkClassRow (short planned onlyName : String) : EventRow :=
  { rigName := "", time := none, endTime := none, durationSeconds := none,
    shortCode := short, plannedCodeName := planned, onlyCodeName := onlyName,
    onlyCodeNumber := "", codeName := "", delayData := "", shiftName := "",
    workDayStarted := none, drillPlan := "" }

example : classify_bucket (mkClassRow "Mantención" "Programada" "") = .mant_programada := by
  decide

example : classify_bucket (mkClassRow "Mantención" "No Programada" "") = .mant_no_programada := by
  decide

example : classify_bucket (mkClassRow "EFECTIVO" "" "") = .efectivo := by decide

example : classify_bucket (mkClassRow "Reserva" "" "") = .reserva := by decide

example : classify_bucket (mkClassRow "Demora" "" "") = .otras := by decide

/-! ## Daily metrics of `analisis_tiempos_operativos.py` -/

/-- The numeric fields of a daily row: the six raw duration totals of
`METRIC_KEYS` plus the derived fields initialised to zero by
`build_daily_row` and filled in by `finalize_metrics`. -/
structure DayMetrics where
  horas_totales : ℚ
  horas_efectivo : ℚ
  horas_reserva : ℚ
  horas_mant_programada : ℚ
  horas_mant_no_programada : ℚ
  horas_otras : ℚ
  horas_operativas : ℚ
  horas_disponibles : ℚ
  disponibilidad_ratio : ℚ
  disponibilidad_pct : ℚ
  disponibilidad_formula_usuario : ℚ
  uebd_ratio : ℚ
  uebd_pct : ℚ
  uebd_formula_usuario : ℚ
deriving Repr, DecidableEq

/-- `build_daily_row`: all numeric fields start at zero. -/
def build_daily_row : DayMetrics :=
  { horas_totales := 0, horas_efectivo := 0, horas_reserva := 0,
    horas_mant_programada := 0, horas_mant_no_programada := 0,
    horas_otras := 0, horas_operativas := 0, horas_disponibles := 0,
    disponibilidad_ratio := 0, disponibilidad_pct := 0,
    disponibilidad_formula_usuario := 0, uebd_ratio := 0, uebd_pct := 0,
    uebd_formula_usuario := 0 }

/-- `classify_and_add_hours(bucket, metrics, hours)`: always adds the hours
to `horas_totales` and to exactly one of the five bucket fields. -/
def classify_and_add_hours (bucket : Bucket) (metrics : DayMetrics) (hours : ℚ) : DayMetrics :=
  let m := { metrics with horas_totales := metrics.horas_totales + hours }
  match bucket with
  | .efectivo => { m with horas_efectivo := m.horas_efectivo + hours }
  | .reserva => { m with horas_reserva := m.horas_reserva + hours }
  | .mant_programada => { m with horas_mant_programada := m.horas_mant_programada + hours }
  | .mant_no_programada =>
      { m with horas_mant_no_programada := m.horas_mant_no_programada + hours }
  | .otras => { m with horas_otras := m.horas_otras + hours }

/-- `finalize_metrics(row)`: computes the derived daily fields from the six
accumulated duration totals. -/
def finalize_metrics (row : DayMetrics) : DayMetrics :=
  let operational_hours :=
    row.horas_totales - row.horas_mant_programada - row.horas_mant_no_programada
  let horas_operativas := max operational_hours 0
  let disponibilidad_ratio :=
    if 0 < row.horas_totales then horas_operativas / row.horas_totales else 0
  let uebd_ratio :=
    if 0 < horas_operativas then row.horas_efectivo / horas_operativas else 0
  { row with
    horas_operativas := horas_operativas,
    horas_disponibles := horas_operativas,
    disponibilidad_ratio := disponibilidad_ratio,
    disponibilidad_pct := disponibilidad_ratio * 100,
    disponibilidad_formula_usuario := disponibilidad_ratio / 100,
    uebd_ratio := uebd_ratio,
    uebd_pct := uebd_ratio * 100,
    uebd_formula_usuario := uebd_ratio / 100 }

/-- Folding a stream of classified events (bucket, duration in hours) into
one daily record, as the per-day accumulation loop of `load_daily_metrics`
does through repeated `classify_and_add_hours` calls starting from
`build_daily_row`. -/
def foldDayEvents (events : List (Bucket × ℚ)) : DayMetrics :=
  events.foldl (fun m e => classify_and_add_hours e.1 m e.2) build_daily_row

/-- The fold invariant: the total is the sum of the five bucket fields and
every duration field is non-negative. -/
def DayInv (m : DayMetrics) : Prop :=
  m.horas_totales =
      m.horas_efectivo + m.horas_reserva + m.horas_mant_programada +
        m.horas_mant_no_programada + m.horas_otras ∧
    0 ≤ m.horas_efectivo ∧ 0 ≤ m.horas_reserva ∧ 0 ≤ m.horas_mant_programada ∧
      0 ≤ m.horas_mant_no_programada ∧ 0 ≤ m.horas_otras

theorem dayInv_build : DayInv build_daily_row := by
  refine ⟨?_, ?_, ?_, ?_, ?_, ?_⟩ <;> simp [build_daily_row]

theorem dayInv_step (b : Bucket) (m : DayMetrics) (h : ℚ) (hh : 0 ≤ h)
    (hm : DayInv m) : DayInv (classify_and_add_hours b m h) := by
  obtain ⟨ht, h1, h2, h3, h4, h5⟩ := hm
  cases b <;>
    exact ⟨by simp [classify_and_add_hours, ht]; ring, by
      constructor
      · first
          | exact h1
          | exact add_nonneg h1 hh
      constructor
      · first
          | exact h2
          | exact add_nonneg h2 hh
      constructor
      · first
          | exact h3
          | exact add_nonneg h3 hh
      constructor
      · first
          | exact h4
          | exact add_nonneg h4 hh
      first
        | exact h5
        | exact add_nonneg h5 hh⟩

theorem dayInv_fold (events : List (Bucket × ℚ))
    (hnn : ∀ e ∈ events, 0 ≤ e.2) : DayInv (foldDayEvents events) := by
  have main : ∀ (l : List (Bucket × ℚ)) (m : DayMetrics), (∀ e ∈ l, 0 ≤ e.2) → DayInv m →
      DayInv (l.foldl (fun m e => classify_and_add_hours e.1 m e.2) m) := by
    intro l
    induction l with
    | nil => intro m _ hm; exact hm
    | cons e rest ih =>
        intro m hl hm
        exact ih _ (fun x hx => hl x (List.mem_cons_of_mem _ hx))
          (dayInv_step e.1 m e.2 (hl e (List.mem_cons_self _ _)) hm)
  exact main events build_daily_row hnn dayInv_build

/-! ## Calendar model and operational-day resolution -/

/-- Proleptic-Gregorian civil date to day number (days since 1970-01-01),
the standard `days_from_civil` computation; this is the day-number value a
parsed `datetime.date` denotes in the model. -/
def civilToDays (y m d : Int) : Int :=
  let yy := if m ≤ 2 then y - 1 else y
  let era := yy.fdiv 400
  let yoe := yy - era * 400
  let mp := m + (if 2 < m then (-3 : Int) else 9)
  let doy := (153 * mp + 2).fdiv 5 + d - 1
  let doe := yoe * 365 + yoe.fdiv 4 - yoe.fdiv 100 + doy
  era * 146097 + doe - 719468

/-- A naive timestamp (seconds since 1970-01-01 00:00:00), the model of a
parsed `datetime`. -/
def mkDateTime (y m d hh mi ss : Int) : Int :=
  civilToDays y m d * 86400 + hh * 3600 + mi * 60 + ss

/-- `datetime.date()` on the timestamp model: the containing day number. -/
def dateOfDateTime (t : Int) : Int :=
  t.fdiv 86400

/-- `get_operational_day(row, start_dt)` (identical in both scripts): an
explicit parsed `WorkDayStarted` date is authoritative; otherwise shift the
start timestamp back 21 hours and take its date; otherwise `None`. -/
def get_operational_day (row : EventRow) (start_dt : Option Int) : Option Int :=
  match row.workDayStarted with
  | some d => some d
  | none =>
      match start_dt with
      | none => none
      | some s => some (dateOfDateTime (s - 21 * 3600))

/-- `normalize_shift_name(value)` from `analisis_tiempos_operativos.py`. -/
def normalize_shift_name (value : Option String) : String :=
  let shift := stripStr (value.getD "")
  if shift = "" then "SIN_TURNO"
  else
    let normalized := normalize_text (some shift)
    if normalized = "turno a" ∨ normalized = "a" then "Turno A"
    else if normalized = "turno b" ∨ normalized = "b" then "Turno B"
    else shift

/-- Insertion-ordered association-list update: the model of Python
`dict`/`defaultdict` mutation `d[k] = f(d.get(k, dflt))`, which updates the
existing binding in place or appends a fresh one at the end. -/
def updateAssoc {κ α : Type} [DecidableEq κ] (l : List (κ × α)) (k : κ) (dflt : α)
    (f : α → α) : List (κ × α) :=
  match l with
  | [] => [(k, f dflt)]
  | p :: rest => if p.1 = k then (p.1, f p.2) :: rest else p :: updateAssoc rest k dflt f

/-- The mutable state of the `load_daily_metrics` reading loop: the daily
and per-shift dictionaries, the code-keyed impact accumulators, the impact
totals and the diagnostic counters.  Identification fields stored inside
each daily row by the script (`fecha_operativa`, `anio`, `mes`,
`perforadora`, `turno`) are carried here by the dictionary keys. -/
structure LoadState where
  daily : List ((Int × String) × DayMetrics)
  shift_daily : List ((Int × String × String) × DayMetrics)
  availability_impact_hours_by_code : List (String × ℚ)
  uebd_impact_hours_by_code : List (String × ℚ)
  availability_impact_hours_by_code_rig : List ((String × String) × ℚ)
  uebd_impact_hours_by_code_rig : List ((String × String) × ℚ)
  impact_horas_totales : ℚ
  impact_horas_operativas : ℚ
  impact_horas_efectivo : ℚ
  rows_total : Nat
  rows_without_operational_day : Nat
  rows_duration_fallback : Nat
deriving Repr, DecidableEq

/-- The empty `load_daily_metrics` state before any row is read. -/
def initLoadState : LoadState :=
  { daily := [], shift_daily := [], availability_impact_hours_by_code := [],
    uebd_impact_hours_by_code := [], availability_impact_hours_by_code_rig := [],
    uebd_impact_hours_by_code_rig := [], impact_horas_totales := 0,
    impact_horas_operativas := 0, impact_horas_efectivo := 0, rows_total := 0,
    rows_without_operational_day := 0, rows_duration_fallback := 0 }

/-- Duration coercion of the `load_daily_metrics` loop: the parsed
`Duration` column, else `end − start` when both timestamps parse (flagging
the fallback), else zero; then clamped to be non-negative.  Returns the
clamped duration in seconds paired with the fallback flag. -/
def load_duration_seconds (row : EventRow) : ℚ × Bool :=
  let raw : ℚ × Bool :=
    match row.durationSeconds, row.time, row.endTime with
    | some d, _, _ => (d, false)
    | none, some s, some e => (((e - s : Int) : ℚ), true)
    | none, _, _ => (0, false)
  (max raw.1 0, raw.2)

/-- One iteration of the `load_daily_metrics` reading loop on one row. -/
def load_step (st0 : LoadState) (row : EventRow) : LoadState :=
  let st := { st0 with rows_total := st0.rows_total + 1 }
  let rig_name := if stripStr row.rigName = "" then "SIN_RIG" else stripStr row.rigName
  let start_dt := row.time
  let dur := load_duration_seconds row
  let duration_hours := dur.1 / 3600
  let st :=
    if dur.2 then { st with rows_duration_fallback := st.rows_duration_fallback + 1 } else st
  match get_operational_day row start_dt with
  | none =>
      { st with rows_without_operational_day := st.rows_without_operational_day + 1 }
  | some operational_day =>
      let bucket := classify_bucket row
      let code_label := build_code_label row
      let shift_name := normalize_shift_name (some row.shiftName)
      let st := { st with impact_horas_totales := st.impact_horas_totales + duration_hours }
      let st :=
        if bucket = .mant_programada ∨ bucket = .mant_no_programada then
          { st with
            availability_impact_hours_by_code :=
              updateAssoc st.availability_impact_hours_by_code code_label 0
                (fun h => h + duration_hours),
            availability_impact_hours_by_code_rig :=
              updateAssoc st.availability_impact_hours_by_code_rig (rig_name, code_label) 0
                (fun h => h + duration_hours) }
        else
          let st :=
            { st with impact_horas_operativas := st.impact_horas_operativas + duration_hours }
          if bucket = .efectivo then
            { st with impact_horas_efectivo := st.impact_horas_efectivo + duration_hours }
          else
            { st with
              uebd_impact_hours_by_code :=
                updateAssoc st.uebd_impact_hours_by_code code_label 0
                  (fun h => h + duration_hours),
              uebd_impact_hours_by_code_rig :=
                updateAssoc st.uebd_impact_hours_by_code_rig (rig_name, code_label) 0
                  (fun h => h + duration_hours) }
      let st :=
        { st with
          daily :=
            updateAssoc st.daily (operational_day, rig_name) build_daily_row
              (fun m => classify_and_add_hours bucket m duration_hours) }
      { st with
        shift_daily :=
          updateAssoc st.shift_daily (operational_day, rig_name, shift_name) build_daily_row
            (fun m => classify_and_add_hours bucket m duration_hours) }

example :
    get_operational_day (mkClassRow "" "" "") (some (mkDateTime 2026 2 17 3 0 0)) =
      some (civilToDays 2026 2 16) := by decide

/-! ## Daily aggregation of `analisis_brecha_2025_vs_feb2026.py` -/

/-- Inverse civil-calendar conversion (`civil_from_days`): day number to
(year, month, day); the model of `date.year` / `date.month`. -/
def civilFromDays (z0 : Int) : Int × Int × Int :=
  let z := z0 + 719468
  let era := z.fdiv 146097
  let doe := z - era * 146097
  let yoe := (doe - doe.fdiv 1460 + doe.fdiv 36524 - doe.fdiv 146096).fdiv 365
  let y := yoe + era * 400
  let doy := doe - (365 * yoe + yoe.fdiv 4 - yoe.fdiv 100)
  let mp := (5 * doy + 2).fdiv 153
  let d := doy - (153 * mp + 2).fdiv 5 + 1
  let m := mp + (if mp < 10 then 3 else -9)
  (if m ≤ 2 then y + 1 else y, m, d)

def yearOfDay (d : Int) : Int :=
  (civilFromDays d).1

def monthOfDay (d : Int) : Int :=
  (civilFromDays d).2.1

example : yearOfDay (civilToDays 2026 2 16) = 2026 := by decide

example : monthOfDay (civilToDays 2026 2 16) = 2 := by decide

/-- Model of Python's `p in s` substring test on character lists. -/
def listContains (l p : List Char) : Bool :=
  (List.range (l.length + 1)).any (fun i => listStartsWith (l.drop i) p)

/-- Generic association-list lookup (`d.get(k)`). -/
def lookupAssoc {κ α : Type} [DecidableEq κ] (l : List (κ × α)) (k : κ) : Option α :=
  (l.find? (fun p => decide (p.1 = k))).map Prod.snd

/-- The per-day metrics dictionary created by `base_day_metrics()` in the
gap-analysis script: the six duration totals plus the directly accumulated
`horas_operativas`. -/
structure BrechaDay where
  horas_totales : ℚ
  horas_operativas : ℚ
  horas_efectivo : ℚ
  horas_reserva : ℚ
  horas_mant_programada : ℚ
  horas_mant_no_programada : ℚ
  horas_otras : ℚ
deriving Repr, DecidableEq

/-- `base_day_metrics()`: all seven totals start at zero. -/
def base_day_metrics : BrechaDay :=
  { horas_totales := 0, horas_operativas := 0, horas_efectivo := 0,
    horas_reserva := 0, horas_mant_programada := 0,
    horas_mant_no_programada := 0, horas_otras := 0 }

/-- The per-event metrics update of the `aggregate_daily_data` loop: the
hours go to `horas_totales`, to the matching bucket field, and — for the
`efectivo`, `reserva` and `otras` buckets — directly to
`horas_operativas`. -/
def brecha_add_event (bucket : Bucket) (m0 : BrechaDay) (h : ℚ) : BrechaDay :=
  let m := { m0 with horas_totales := m0.horas_totales + h }
  match bucket with
  | .mant_programada =>
      { m with horas_mant_programada := m.horas_mant_programada + h }
  | .mant_no_programada =>
      { m with horas_mant_no_programada := m.horas_mant_no_programada + h }
  | .efectivo =>
      { m with horas_efectivo := m.horas_efectivo + h,
               horas_operativas := m.horas_operativas + h }
  | .reserva =>
      { m with horas_reserva := m.horas_reserva + h,
               horas_operativas := m.horas_operativas + h }
  | .otras =>
      { m with horas_otras := m.horas_otras + h,
               horas_operativas := m.horas_operativas + h }

/-- The UEBD ratio formula of the gap-analysis script's `daily_rows`
construction: `horas_efectivo / horas_operativas` when the denominator is
positive, else zero. -/
def brecha_daily_uebd_ratio (m : BrechaDay) : ℚ :=
  if 0 < m.horas_operativas then m.horas_efectivo / m.horas_operativas else 0

/-- The availability ratio formula of the gap-analysis script's
`daily_rows` construction: `horas_operativas / horas_totales` when the
denominator is positive, else zero. -/
def brecha_daily_disp_ratio (m : BrechaDay) : ℚ :=
  if 0 < m.horas_totales then m.horas_operativas / m.horas_totales else 0

/-- Duration coercion of the `aggregate_daily_data` loop: explicit parsed
`Duration`, else `end − start` when both timestamps parse, else zero;
clamped at zero and converted to hours. -/
def brecha_duration_hours (row : EventRow) : ℚ :=
  let dur_sec : ℚ :=
    match row.durationSeconds, row.time, row.endTime with
    | some d, _, _ => d
    | none, some s, some e => ((e - s : Int) : ℚ)
    | none, _, _ => 0
  max dur_sec 0 / 3600

/-- The mutable state of the `aggregate_daily_data` reading loop. -/
structure BrechaAggState where
  daily_metrics : List (Int × BrechaDay)
  daily_code_uebd : List (Int × List (String × ℚ))
  daily_code_disp : List (Int × List (String × ℚ))
  daily_code_f09 : List (Int × List (String × ℚ))
  rows_read : Nat
deriving Repr, DecidableEq

def initBrechaAggState : BrechaAggState :=
  { daily_metrics := [], daily_code_uebd := [], daily_code_disp := [],
    daily_code_f09 := [], rows_read := 0 }

/-- Nested defaultdict update `m[op_day][code] += h`. -/
def addDayCode (m : List (Int × List (String × ℚ))) (op_day : Int) (code : String)
    (h : ℚ) : List (Int × List (String × ℚ)) :=
  updateAssoc m op_day [] (fun inner => updateAssoc inner code 0 (fun v => v + h))

/-- One iteration of the `aggregate_daily_data` reading loop on one row:
resolve the operational day (skip if unresolvable or filtered out), coerce
the duration (skip if the coerced duration is not positive), then create
the day's metrics record on first touch and add the hours to the metrics
and to the code-keyed per-day accumulators. -/
def brecha_step (filter_year filter_month : Option Int) (st0 : BrechaAggState)
    (row : EventRow) : BrechaAggState :=
  let st := { st0 with rows_read := st0.rows_read + 1 }
  match get_operational_day row row.time with
  | none => st
  | some op_day =>
      if filter_year.elim false (fun y => yearOfDay op_day != y) then st
      else if filter_month.elim false (fun mo => monthOfDay op_day != mo) then st
      else
        let dur_hours := brecha_duration_hours row
        if dur_hours ≤ 0 then st
        else
          let bucket := classify_bucket row
          let code := build_code_label row
          let drill_plan := normalize_text (some row.drillPlan)
          let is_f09 := listContains drill_plan.toList "f09".toList
          let st :=
            { st with
              daily_metrics :=
                updateAssoc st.daily_metrics op_day base_day_metrics
                  (fun m => brecha_add_event bucket m dur_hours) }
          match bucket with
          | .mant_programada =>
              { st with daily_code_disp := addDayCode st.daily_code_disp op_day code dur_hours }
          | .mant_no_programada =>
              { st with daily_code_disp := addDayCode st.daily_code_disp op_day code dur_hours }
          | .efectivo => st
          | .reserva =>
              let st :=
                { st with daily_code_uebd := addDayCode st.daily_code_uebd op_day code dur_hours }
              if is_f09 then
                { st with daily_code_f09 := addDayCode st.daily_code_f09 op_day code dur_hours }
              else st
          | .otras =>
              let st :=
                { st with daily_code_uebd := addDayCode st.daily_code_uebd op_day code dur_hours }
              if is_f09 then
                { st with daily_code_f09 := addDayCode st.daily_code_f09 op_day code dur_hours }
              else st

/-- Field-wise sum of two brecha day records (the `totals` accumulation). -/
def addBrecha (a b : BrechaDay) : BrechaDay :=
  { horas_totales := a.horas_totales + b.horas_totales,
    horas_operativas := a.horas_operativas + b.horas_operativas,
    horas_efectivo := a.horas_efectivo + b.horas_efectivo,
    horas_reserva := a.horas_reserva + b.horas_reserva,
    horas_mant_programada := a.horas_mant_programada + b.horas_mant_programada,
    horas_mant_no_programada := a.horas_mant_no_programada + b.horas_mant_no_programada,
    horas_otras := a.horas_otras + b.horas_otras }

/-- Field-wise `totals[k] / day_count if day_count > 0 else 0`. -/
def avgBrecha (t : BrechaDay) (day_count : Nat) : BrechaDay :=
  if 0 < day_count then
    { horas_totales := t.horas_totales / day_count,
      horas_operativas := t.horas_operativas / day_count,
      horas_efectivo := t.horas_efectivo / day_count,
      horas_reserva := t.horas_reserva / day_count,
      horas_mant_programada := t.horas_mant_programada / day_count,
      horas_mant_no_programada := t.horas_mant_no_programada / day_count,
      horas_otras := t.horas_otras / day_count }
  else base_day_metrics

/-- `avg_code_hours_per_day(daily_code_map)`: accumulate each code's hours
over the days with data, then divide by the day count (empty when there are
no days). -/
def avg_code_hours_per_day (days : List Int) (day_count : Nat)
    (m : List (Int × List (String × ℚ))) : List (String × ℚ) :=
  let accum :=
    days.foldl
      (fun acc d =>
        ((lookupAssoc m d).getD []).foldl
          (fun acc p => updateAssoc acc p.1 0 (fun v => v + p.2)) acc)
      []
  if day_count = 0 then [] else accum.map (fun p => (p.1, p.2 / (day_count : ℚ)))

/-- One per-day output row of `aggregate_daily_data`'s `daily_rows`. -/
structure BrechaDailyRow where
  fecha_operativa : Int
  metrics : BrechaDay
  uebd_ratio : ℚ
  uebd_pct : ℚ
  disponibilidad_ratio : ℚ
  disponibilidad_pct : ℚ
deriving Repr, DecidableEq

/-- The summary record returned by `aggregate_daily_data`. -/
structure BrechaAggResult where
  rows_read : Nat
  days : List Int
  day_count : Nat
  totals : BrechaDay
  avg_hpd : BrechaDay
  uebd_ratio : ℚ
  disp_ratio : ℚ
  daily_rows : List BrechaDailyRow
  uebd_code_hpd : List (String × ℚ)
  disp_code_hpd : List (String × ℚ)
  f09_code_hpd : List (String × ℚ)
deriving Repr, DecidableEq

/-- `aggregate_daily_data(csv_path, filter_year, filter_month)`: fold the
rows through `brecha_step`, then derive the sorted day list, the day
count, the field totals, the per-day averages, the fleet ratios, the
per-day output rows and the per-code average hours per day. -/
def aggregate_daily_data (rows : List EventRow) (filter_year filter_month : Option Int)
    : BrechaAggResult :=
  let st := rows.foldl (brecha_step filter_year filter_month) initBrechaAggState
  let days := (st.daily_metrics.map Prod.fst).mergeSort (fun a b => a ≤ b)
  let day_count := days.length
  let dayOf := fun d => (lookupAssoc st.daily_metrics d).getD base_day_metrics
  let totals := days.foldl (fun acc d => addBrecha acc (dayOf d)) base_day_metrics
  { rows_read := st.rows_read,
    days := days,
    day_count := day_count,
    totals := totals,
    avg_hpd := avgBrecha totals day_count,
    uebd_ratio :=
      if 0 < totals.horas_operativas then totals.horas_efectivo / totals.horas_operativas else 0,
    disp_ratio :=
      if 0 < totals.horas_totales then totals.horas_operativas / totals.horas_totales else 0,
    daily_rows :=
      days.map (fun d =>
        let m := dayOf d
        { fecha_operativa := d, metrics := m,
          uebd_ratio := brecha_daily_uebd_ratio m,
          uebd_pct := brecha_daily_uebd_ratio m * 100,
          disponibilidad_ratio := brecha_daily_disp_ratio m,
          disponibilidad_pct := brecha_daily_disp_ratio m * 100 }),
    uebd_code_hpd := avg_code_hours_per_day days day_count st.daily_code_uebd,
    disp_code_hpd := avg_code_hours_per_day days day_count st.daily_code_disp,
    f09_code_hpd := avg_code_hours_per_day days day_count st.daily_code_f09 }

/-! ## Gap attribution of `analisis_brecha_2025_vs_feb2026.py` -/

/-- One code-delta dictionary row.  The fields written later than
`build_code_delta_rows` are `Option`-valued: `none` models a key that is
absent from the Python dict. -/
structure CodeDeltaRow where
  codigo : String
  baseline_horas_dia : ℚ
  comparado_horas_dia : ℚ
  delta_horas_dia : ℚ
  delta_horas_dia_positivo : ℚ
  impacto_raw_pp : Option ℚ
  factor_escalamiento : Option ℚ
  impacto_atribuido_pp : Option ℚ
  perdida_horas_dia_atribuida : Option ℚ
  perdida_horas_mes_atribuida : Option ℚ
  ranking_impacto : Option Nat
  participacion_gap_pct : Option ℚ
  impacto_acumulado_pp : Option ℚ
deriving Repr, DecidableEq

/-- The row `build_code_delta_rows` creates for one code from the two
average-hours-per-day dicts (`dict.get(code, 0.0)` on each side). -/
def mkDeltaRow (b c : List (String × ℚ)) (code : String) : CodeDeltaRow :=
  let bb := (lookupAssoc b code).getD 0
  let cc := (lookupAssoc c code).getD 0
  { codigo := code, baseline_horas_dia := bb, comparado_horas_dia := cc,
    delta_horas_dia := cc - bb, delta_horas_dia_positivo := max (cc - bb) 0,
    impacto_raw_pp := none, factor_escalamiento := none,
    impacto_atribuido_pp := none, perdida_horas_dia_atribuida := none,
    perdida_horas_mes_atribuida := none, ranking_impacto := none,
    participacion_gap_pct := none, impacto_acumulado_pp := none }

/-- `sorted(set(baseline) | set(compare))`: the duplicate-free union of the
two dicts' code keys in ascending order. -/
def unionCodes (b c : List (String × ℚ)) : List String :=
  ((b.map Prod.fst ++ c.map Prod.fst).dedup).mergeSort (fun a b => decide (a ≤ b))

/-- `build_code_delta_rows(baseline_hpd_by_code, compare_hpd_by_code)`:
one row per code of the union, sorted by delta descending (stable sort,
`reverse=True`). -/
def build_code_delta_rows (b c : List (String × ℚ)) : List CodeDeltaRow :=
  ((unionCodes b c).map (mkDeltaRow b c)).mergeSort
    (fun r1 r2 => decide (r2.delta_horas_dia ≤ r1.delta_horas_dia))

/-- The final ranking loop of `attribute_gap_to_codes`: walk the ordered
rows assigning 1-based rank, share of the total positive attributed impact,
and the running cumulative sum of positive impacts. -/
def rank_rows (total_impact : ℚ) : Nat → ℚ → List CodeDeltaRow → List CodeDeltaRow
  | _, _, [] => []
  | idx, acum, row :: rest =>
      let imp := max (row.impacto_atribuido_pp.getD 0) 0
      let acum2 := acum + imp
      { row with
        ranking_impacto := some idx,
        participacion_gap_pct :=
          some (if 0 < total_impact then imp / total_impact * 100 else 0),
        impacto_acumulado_pp := some acum2 } ::
        rank_rows total_impact (idx + 1) acum2 rest

/-- `attribute_gap_to_codes(delta_rows, denominator_hpd, gap_pp,
compared_days)`: the central reconciliation algorithm.  With a
non-positive denominator it returns early, zeroing `impacto_raw_pp`,
`factor_escalamiento`, `impacto_atribuido_pp` and
`perdida_horas_mes_atribuida` on every row (and, exactly as the script
does, touching no other field).  Otherwise it computes each row's raw
percentage-point impact, a single scaling factor (zero unless both the raw
sum and the gap are positive), the attributed impact and the re-derived
per-day and per-month hour losses, then sorts by attributed impact
descending and runs the ranking loop. -/
def attribute_gap_to_codes (delta_rows : List CodeDeltaRow) (denominator_hpd : ℚ)
    (gap_pp : ℚ) (compared_days : Int) : List CodeDeltaRow :=
  if denominator_hpd ≤ 0 then
    delta_rows.map (fun row =>
      { row with impacto_raw_pp := some 0, factor_escalamiento := some 0,
                 impacto_atribuido_pp := some 0,
                 perdida_horas_mes_atribuida := some 0 })
  else
    let rows1 := delta_rows.map (fun row =>
      { row with
        impacto_raw_pp := some (row.delta_horas_dia_positivo / denominator_hpd * 100) })
    let raw_sum_pp :=
      (delta_rows.map (fun row => row.delta_horas_dia_positivo / denominator_hpd * 100)).sum
    let factor := if 0 < raw_sum_pp ∧ 0 < gap_pp then gap_pp / raw_sum_pp else 0
    let rows2 := rows1.map (fun row =>
      let impacto_pp := (row.impacto_raw_pp.getD 0) * factor
      let perdida_hpd := impacto_pp / 100 * denominator_hpd
      { row with factor_escalamiento := some factor,
                 impacto_atribuido_pp := some impacto_pp,
                 perdida_horas_dia_atribuida := some perdida_hpd,
                 perdida_horas_mes_atribuida := some (perdida_hpd * (compared_days : ℚ)) })
    let ordered := rows2.mergeSort (fun a b =>
      decide ((b.impacto_atribuido_pp.getD 0) ≤ (a.impacto_atribuido_pp.getD 0)))
    let total_impact := (ordered.map (fun r => max (r.impacto_atribuido_pp.getD 0) 0)).sum
    rank_rows total_impact 1 0 ordered

/-- `sum_field(rows, "impacto_atribuido_pp")`: sum with per-row default 0
for an absent key. -/
def sum_impacto_atribuido (rows : List CodeDeltaRow) : ℚ :=
  (rows.map (fun r => r.impacto_atribuido_pp.getD 0)).sum

/-! ## Period aggregation of `analisis_tiempos_operativos.py` -/

/-- `granularity` argument of `aggregate_period`; the script validates the
string against exactly these two values and raises otherwise, so the
argument is modelled as this two-value type. -/
inductive Granularity where
  | mensual
  | anual
deriving DecidableEq, Repr

/-- A finalized daily row as fed to `aggregate_period`: identification
fields plus the six raw duration totals (the only inputs the aggregation
reads). -/
structure DailyRowP where
  anio : Int
  mes : Int
  perforadora : String
  horas_totales : ℚ
  horas_efectivo : ℚ
  horas_reserva : ℚ
  horas_mant_programada : ℚ
  horas_mant_no_programada : ℚ
  horas_otras : ℚ
deriving Repr, DecidableEq

/-- A period record of `aggregate_period` (`mes = none` models the empty
string stored for annual granularity). -/
structure PeriodRec where
  anio : Int
  mes : Option Int
  perforadora : String
  dias_con_datos : Nat
  horas_totales : ℚ
  horas_efectivo : ℚ
  horas_reserva : ℚ
  horas_mant_programada : ℚ
  horas_mant_no_programada : ℚ
  horas_otras : ℚ
  horas_operativas : ℚ
  horas_disponibles : ℚ
  promedio_diario_efectivo_h : ℚ
  promedio_diario_reserva_h : ℚ
  promedio_diario_mant_programada_h : ℚ
  promedio_diario_mant_no_programada_h : ℚ
  disponibilidad_ratio : ℚ
  disponibilidad_pct : ℚ
  disponibilidad_formula_usuario : ℚ
  uebd_ratio : ℚ
  uebd_pct : ℚ
  uebd_formula_usuario : ℚ
deriving Repr, DecidableEq

/-- The grouping key: `(anio, mes)` or `(anio,)` extended with the rig name
or the `"FLOTA"` sentinel. -/
def periodKey (g : Granularity) (by_rig : Bool) (row : DailyRowP) : Int × Option Int × String :=
  (row.anio, if g = .mensual then some row.mes else none,
    if by_rig then row.perforadora else "FLOTA")

/-- The fresh all-zero group record created on first touch of a key. -/
def initPeriodRec (k : Int × Option Int × String) : PeriodRec :=
  { anio := k.1, mes := k.2.1, perforadora := k.2.2, dias_con_datos := 0,
    horas_totales := 0, horas_efectivo := 0, horas_reserva := 0,
    horas_mant_programada := 0, horas_mant_no_programada := 0, horas_otras := 0,
    horas_operativas := 0, horas_disponibles := 0,
    promedio_diario_efectivo_h := 0, promedio_diario_reserva_h := 0,
    promedio_diario_mant_programada_h := 0, promedio_diario_mant_no_programada_h := 0,
    disponibilidad_ratio := 0, disponibilidad_pct := 0,
    disponibilidad_formula_usuario := 0, uebd_ratio := 0, uebd_pct := 0,
    uebd_formula_usuario := 0 }

/-- `rec["dias_con_datos"] += 1` and the six `METRIC_KEYS` accumulations. -/
def accumPeriod (row : DailyRowP) (rec : PeriodRec) : PeriodRec :=
  { rec with
    dias_con_datos := rec.dias_con_datos + 1,
    horas_totales := rec.horas_totales + row.horas_totales,
    horas_efectivo := rec.horas_efectivo + row.horas_efectivo,
    horas_reserva := rec.horas_reserva + row.horas_reserva,
    horas_mant_programada := rec.horas_mant_programada + row.horas_mant_programada,
    horas_mant_no_programada := rec.horas_mant_no_programada + row.horas_mant_no_programada,
    horas_otras := rec.horas_otras + row.horas_otras }

/-- The per-group finalization pass of `aggregate_period`: recompute the
operative hours, the daily averages of the raw durations, and both ratios
from the summed durations. -/
def finalizePeriod (rec : PeriodRec) : PeriodRec :=
  let operational_hours :=
    rec.horas_totales - rec.horas_mant_programada - rec.horas_mant_no_programada
  let horas_operativas := max operational_hours 0
  let days : ℚ := (max rec.dias_con_datos 1 : Nat)
  let disponibilidad_ratio :=
    if 0 < rec.horas_totales then horas_operativas / rec.horas_totales else 0
  let uebd_ratio :=
    if 0 < horas_operativas then rec.horas_efectivo / horas_operativas else 0
  { rec with
    horas_operativas := horas_operativas,
    horas_disponibles := horas_operativas,
    promedio_diario_efectivo_h := rec.horas_efectivo / days,
    promedio_diario_reserva_h := rec.horas_reserva / days,
    promedio_diario_mant_programada_h := rec.horas_mant_programada / days,
    promedio_diario_mant_no_programada_h := rec.horas_mant_no_programada / days,
    disponibilidad_ratio := disponibilidad_ratio,
    disponibilidad_pct := disponibilidad_ratio * 100,
    disponibilidad_formula_usuario := disponibilidad_ratio / 100,
    uebd_ratio := uebd_ratio,
    uebd_pct := uebd_ratio * 100,
    uebd_formula_usuario := uebd_ratio / 100 }

/-- `aggregate_period(daily_rows, granularity, by_rig)`: group the daily
rows by period key accumulating the six duration totals and the day count,
sort the group records by `(anio, mes or 0, perforadora)`, and finalize
each one. -/
def aggregate_period (daily_rows : List DailyRowP) (g : Granularity) (by_rig : Bool)
    : List PeriodRec :=
  let grouped :=
    daily_rows.foldl
      (fun acc row =>
        let k := periodKey g by_rig row
        updateAssoc acc k (initPeriodRec k) (accumPeriod row))
      []
  let result :=
    (grouped.map Prod.snd).mergeSort (fun r1 r2 =>
      decide (r1.anio < r2.anio ∨ (r1.anio = r2.anio ∧
        (r1.mes.getD 0 < r2.mes.getD 0 ∨ (r1.mes.getD 0 = r2.mes.getD 0 ∧
          r1.perforadora ≤ r2.perforadora)))))
  result.map finalizePeriod

/-! ## Theorems -/

theorem finalize_fields (m : DayMetrics) :
    (finalize_metrics m).horas_totales = m.horas_totales ∧
      (finalize_metrics m).horas_efectivo = m.horas_efectivo ∧
      (finalize_metrics m).horas_operativas =
        max (m.horas_totales - m.horas_mant_programada - m.horas_mant_no_programada) 0 ∧
      (finalize_metrics m).disponibilidad_ratio =
        (if 0 < m.horas_totales then
          max (m.horas_totales - m.horas_mant_programada - m.horas_mant_no_programada) 0 /
            m.horas_totales
        else 0) ∧
      (finalize_metrics m).uebd_ratio =
        (if 0 < max (m.horas_totales - m.horas_mant_programada - m.horas_mant_no_programada) 0 then
          m.horas_efectivo /
            max (m.horas_totales - m.horas_mant_programada - m.horas_mant_no_programada) 0
        else 0) := by
  refine ⟨rfl, rfl, rfl, rfl, rfl⟩

/-- The concrete day of the §8 example: `total=24, scheduledMaint=2,
unscheduledMaint=1, effective=15`. -/
def exampleDayC8 : DayMetrics :=
  { build_daily_row with horas_totales := 24, horas_mant_programada := 2,
                         horas_mant_no_programada := 1, horas_efectivo := 15 }

/-- C8: for every finalized daily record, `operativeHours` is the total
minus both maintenance buckets floored at zero, the availability ratio is
`operativeHours / total` (zero when the total is zero) and the UEBD ratio
is `effective / operativeHours` (zero when the operative hours are zero);
on the `total=24, scheduledMaint=2, unscheduledMaint=1, effective=15`
example this gives `operativeHours = 21`, `availabilityRatio = 0.875` and
`uebdRatio = 15/21`. -/
theorem c8_daily_derived_fields :
    (∀ m : DayMetrics,
        (finalize_metrics m).horas_operativas =
            max (m.horas_totales - m.horas_mant_programada - m.horas_mant_no_programada) 0 ∧
          (0 < m.horas_totales →
            (finalize_metrics m).disponibilidad_ratio =
              (finalize_metrics m).horas_operativas / m.horas_totales) ∧
          (m.horas_totales = 0 → (finalize_metrics m).disponibilidad_ratio = 0) ∧
          (0 < (finalize_metrics m).horas_operativas →
            (finalize_metrics m).uebd_ratio =
              m.horas_efectivo / (finalize_metrics m).horas_operativas) ∧
          ((finalize_metrics m).horas_operativas = 0 →
            (finalize_metrics m).uebd_ratio = 0)) ∧
      (finalize_metrics exampleDayC8).horas_operativas = 21 ∧
      (finalize_metrics exampleDayC8).disponibilidad_ratio = 875 / 1000 ∧
      (finalize_metrics exampleDayC8).uebd_ratio = 15 / 21 := by
  refine ⟨fun m => ?_,
    by norm_num [finalize_metrics, exampleDayC8, build_daily_row],
    by norm_num [finalize_metrics, exampleDayC8, build_daily_row],
    by norm_num [finalize_metrics, exampleDayC8, build_daily_row]⟩
  obtain ⟨-, -, hop, hdisp, huebd⟩ := finalize_fields m
  refine ⟨hop, ?_, ?_, ?_, ?_⟩
  · intro ht
    rw [hdisp, hop, if_pos ht]
  · intro ht
    rw [hdisp, ht]
    simp
  · intro hpos
    rw [hop] at hpos
    rw [huebd, hop, if_pos hpos]
  · intro hzero
    rw [hop] at hzero
    rw [huebd, hzero]
    simp

/-- Witness for the hypothesis-bearing conjuncts of
`c8_daily_derived_fields`, applied at the example day. -/
theorem c8_daily_derived_fields_witness :
    (0 : ℚ) < 24 ∧
      (finalize_metrics exampleDayC8).disponibilidad_ratio =
        (finalize_metrics exampleDayC8).horas_operativas / 24 :=
  ⟨by norm_num,
    (c8_daily_derived_fields.1 exampleDayC8).2.1
      (by norm_num [exampleDayC8, build_daily_row])⟩

/-- C4: for every daily record obtained by folding events with
non-negative hour durations through `classify_and_add_hours` and then
finalizing, the availability ratio and the UEBD ratio lie in `[0, 1]` and
the operative hours do not exceed the total (each event's hours go to
exactly one bucket field and to the total, which is what the fold
invariant `DayInv` records). -/
theorem c4_ratio_bounds (events : List (Bucket × ℚ)) (hnn : ∀ e ∈ events, 0 ≤ e.2) :
    0 ≤ (finalize_metrics (foldDayEvents events)).disponibilidad_ratio ∧
      (finalize_metrics (foldDayEvents events)).disponibilidad_ratio ≤ 1 ∧
      0 ≤ (finalize_metrics (foldDayEvents events)).uebd_ratio ∧
      (finalize_metrics (foldDayEvents events)).uebd_ratio ≤ 1 ∧
      (finalize_metrics (foldDayEvents events)).horas_operativas ≤
        (finalize_metrics (foldDayEvents events)).horas_totales := by
  obtain ⟨ht, h1, h2, h3, h4, h5⟩ := dayInv_fold events hnn
  set F := foldDayEvents events with hF
  obtain ⟨htot, hef, hop, hdisp, huebd⟩ := finalize_fields F
  have hsub : F.horas_totales - F.horas_mant_programada - F.horas_mant_no_programada =
      F.horas_efectivo + F.horas_reserva + F.horas_otras := by
    rw [ht]; ring
  have hsubnn : 0 ≤ F.horas_totales - F.horas_mant_programada - F.horas_mant_no_programada := by
    rw [hsub]; positivity
  have hmax : max (F.horas_totales - F.horas_mant_programada - F.horas_mant_no_programada) 0 =
      F.horas_efectivo + F.horas_reserva + F.horas_otras := by
    rw [max_eq_left hsubnn, hsub]
  have hople : F.horas_efectivo + F.horas_reserva + F.horas_otras ≤ F.horas_totales := by
    rw [ht]; linarith
  refine ⟨?_, ?_, ?_, ?_, ?_⟩
  · rw [hdisp]
    split
    · next hpos => exact div_nonneg (le_max_right _ _) (le_of_lt hpos)
    · exact le_refl 0
  · rw [hdisp]
    split
    · next hpos =>
        exact div_le_one_of_le₀ (by rw [hmax]; exact hople) (le_of_lt hpos)
    · exact zero_le_one
  · rw [huebd]
    split
    · next hpos => exact div_nonneg h1 (le_of_lt hpos)
    · exact le_refl 0
  · rw [huebd]
    split
    · next hpos =>
        refine div_le_one_of_le₀ ?_ (le_of_lt hpos)
        rw [hmax]
        linarith
    · exact zero_le_one
  · rw [hop, htot, hmax]
    exact hople

/-- Witness for `c4_ratio_bounds` at a concrete event list. -/
theorem c4_ratio_bounds_witness :
    (∀ e ∈ [((Bucket.efectivo : Bucket), (15 : ℚ)), (.mant_programada, 2),
        (.mant_no_programada, 1), (.reserva, 3), (.otras, 3)], 0 ≤ e.2) ∧
      0 ≤ (finalize_metrics (foldDayEvents [((Bucket.efectivo : Bucket), (15 : ℚ)),
          (.mant_programada, 2), (.mant_no_programada, 1), (.reserva, 3),
          (.otras, 3)])).disponibilidad_ratio :=
  ⟨by norm_num,
    (c4_ratio_bounds [((Bucket.efectivo : Bucket), (15 : ℚ)), (.mant_programada, 2),
      (.mant_no_programada, 1), (.reserva, 3), (.otras, 3)] (by norm_num)).1⟩

/-- The parallel-fold relation between the gap-analysis per-day record and
the operational-times per-day record built from the same event stream: the
six common totals coincide and the directly accumulated operative hours
are the effective + reserve + other hours. -/
def BrechaRel (B : BrechaDay) (m : DayMetrics) : Prop :=
  B.horas_totales = m.horas_totales ∧
    B.horas_efectivo = m.horas_efectivo ∧
    B.horas_reserva = m.horas_reserva ∧
    B.horas_mant_programada = m.horas_mant_programada ∧
    B.horas_mant_no_programada = m.horas_mant_no_programada ∧
    B.horas_otras = m.horas_otras ∧
    B.horas_operativas = m.horas_efectivo + m.horas_reserva + m.horas_otras

theorem brechaRel_step (b : Bucket) (B : BrechaDay) (m : DayMetrics) (h : ℚ)
    (hr : BrechaRel B m) : BrechaRel (brecha_add_event b B h) (classify_and_add_hours b m h) := by
  obtain ⟨h1, h2, h3, h4, h5, h6, h7⟩ := hr
  cases b <;>
    refine ⟨?_, ?_, ?_, ?_, ?_, ?_, ?_⟩ <;>
    simp [brecha_add_event, classify_and_add_hours, h1, h2, h3, h4, h5, h6, h7] <;>
    ring

theorem brechaRel_fold (events : List (Bucket × ℚ)) :
    BrechaRel (events.foldl (fun m e => brecha_add_event e.1 m e.2) base_day_metrics)
      (foldDayEvents events) := by
  have main : ∀ (l : List (Bucket × ℚ)) (B : BrechaDay) (m : DayMetrics), BrechaRel B m →
      BrechaRel (l.foldl (fun x e => brecha_add_event e.1 x e.2) B)
        (l.foldl (fun x e => classify_and_add_hours e.1 x e.2) m) := by
    intro l
    induction l with
    | nil => intro B m hr; exact hr
    | cons e rest ih => intro B m hr; exact ih _ _ (brechaRel_step e.1 B m e.2 hr)
  have h0 : BrechaRel base_day_metrics build_daily_row := by
    refine ⟨?_, ?_, ?_, ?_, ?_, ?_, ?_⟩ <;> simp [base_day_metrics, build_daily_row]
  exact main events base_day_metrics build_daily_row h0

/-- C9: on any event stream with non-negative coerced durations, the
operative hours that the gap-analysis aggregator accumulates directly
(effective + reserve + other) equal the `max(total − scheduled −
unscheduled, 0)` that `finalize_metrics` computes for the
operational-times aggregator over the same stream, and therefore the two
scripts' daily availability and UEBD ratio formulas agree. -/
theorem c9_aggregators_equivalent (events : List (Bucket × ℚ))
    (hnn : ∀ e ∈ events, 0 ≤ e.2) :
    (events.foldl (fun m e => brecha_add_event e.1 m e.2) base_day_metrics).horas_operativas =
        (finalize_metrics (foldDayEvents events)).horas_operativas ∧
      brecha_daily_uebd_ratio
          (events.foldl (fun m e => brecha_add_event e.1 m e.2) base_day_metrics) =
        (finalize_metrics (foldDayEvents events)).uebd_ratio ∧
      brecha_daily_disp_ratio
          (events.foldl (fun m e => brecha_add_event e.1 m e.2) base_day_metrics) =
        (finalize_metrics (foldDayEvents events)).disponibilidad_ratio := by
  obtain ⟨ht, hnn1, hnn2, hnn3, hnn4, hnn5⟩ := dayInv_fold events hnn
  set F := foldDayEvents events with hF
  set B := events.foldl (fun m e => brecha_add_event e.1 m e.2) base_day_metrics with hB
  obtain ⟨h1, h2, h3, h4, h5, h6, h7⟩ := brechaRel_fold events
  obtain ⟨htot, hef, hop, hdisp, huebd⟩ := finalize_fields F
  have hsubnn : 0 ≤ F.horas_totales - F.horas_mant_programada - F.horas_mant_no_programada := by
    rw [ht]; linarith
  have hmax : max (F.horas_totales - F.horas_mant_programada - F.horas_mant_no_programada) 0 =
      F.horas_efectivo + F.horas_reserva + F.horas_otras := by
    rw [max_eq_left hsubnn, ht]; ring
  have hopeq : B.horas_operativas = (finalize_metrics F).horas_operativas := by
    rw [hop, hmax, h7]
  refine ⟨hopeq, ?_, ?_⟩
  · rw [brecha_daily_uebd_ratio, huebd, hopeq, hop, h2]
  · rw [brecha_daily_disp_ratio, hdisp, hopeq, hop, h1]

/-- Witness for `c9_aggregators_equivalent` at a concrete event list. -/
theorem c9_aggregators_equivalent_witness :
    (∀ e ∈ [((Bucket.efectivo : Bucket), (10 : ℚ)), (.mant_programada, 4),
        (.reserva, 2), (.otras, 8)], 0 ≤ e.2) ∧
      ([((Bucket.efectivo : Bucket), (10 : ℚ)), (.mant_programada, 4), (.reserva, 2),
            (.otras, 8)].foldl (fun m e => brecha_add_event e.1 m e.2)
            base_day_metrics).horas_operativas =
        (finalize_metrics (foldDayEvents [((Bucket.efectivo : Bucket), (10 : ℚ)),
            (.mant_programada, 4), (.reserva, 2), (.otras, 8)])).horas_operativas :=
  ⟨by norm_num,
    (c9_aggregators_equivalent [((Bucket.efectivo : Bucket), (10 : ℚ)),
      (.mant_programada, 4), (.reserva, 2), (.otras, 8)] (by norm_num)).1⟩

/-- C7: `classify_bucket` is total into the five-bucket enumeration and
applies first-match-wins precedence: an accent/case-insensitive status
short-code match to "Efectivo" (or an "efectivo_"-prefixed code name)
yields `efectivo`; otherwise short-code "Reserva" yields `reserva`;
otherwise short-code "Mantencion" yields `mant_programada` exactly when
the planned flag normalizes to "programada" and `mant_no_programada`
otherwise; anything else yields `otras`.  The two named instances check
the "Mantención"/"Programada" and "Mantención"/"No Programada" examples. -/
theorem c7_classification_precedence :
    (∀ row : EventRow,
        (normalize_text (some row.shortCode) = "efectivo" ∨
          listStartsWith (normalize_text (some row.onlyCodeName)).toList "efectivo_".toList) →
        classify_bucket row = .efectivo) ∧
      (∀ row : EventRow,
        ¬(normalize_text (some row.shortCode) = "efectivo" ∨
          listStartsWith (normalize_text (some row.onlyCodeName)).toList "efectivo_".toList) →
        normalize_text (some row.shortCode) = "reserva" → classify_bucket row = .reserva) ∧
      (∀ row : EventRow,
        ¬(normalize_text (some row.shortCode) = "efectivo" ∨
          listStartsWith (normalize_text (some row.onlyCodeName)).toList "efectivo_".toList) →
        normalize_text (some row.shortCode) = "mantencion" →
        normalize_text (some row.plannedCodeName) = "programada" →
        classify_bucket row = .mant_programada) ∧
      (∀ row : EventRow,
        ¬(normalize_text (some row.shortCode) = "efectivo" ∨
          listStartsWith (normalize_text (some row.onlyCodeName)).toList "efectivo_".toList) →
        normalize_text (some row.shortCode) = "mantencion" →
        normalize_text (some row.plannedCodeName) ≠ "programada" →
        classify_bucket row = .mant_no_programada) ∧
      (∀ row : EventRow,
        ¬(normalize_text (some row.shortCode) = "efectivo" ∨
          listStartsWith (normalize_text (some row.onlyCodeName)).toList "efectivo_".toList) →
        normalize_text (some row.shortCode) ≠ "reserva" →
        normalize_text (some row.shortCode) ≠ "mantencion" →
        classify_bucket row = .otras) ∧
      classify_bucket (mkClassRow "Mantención" "Programada" "") = .mant_programada ∧
      classify_bucket (mkClassRow "Mantención" "No Programada" "") = .mant_no_programada := by
  refine ⟨?_, ?_, ?_, ?_, ?_, by decide, by decide⟩
  · intro row h
    simp only [classify_bucket]
    rw [if_pos h]
  · intro row h hr
    simp only [classify_bucket]
    rw [if_neg h, if_pos hr]
  · intro row h hm hp
    simp only [classify_bucket]
    have hr : ¬(normalize_text (some row.shortCode) = "reserva") := by
      rw [hm]; decide
    rw [if_neg h, if_neg hr, if_pos hm, if_pos hp]
  · intro row h hm hp
    simp only [classify_bucket]
    have hr : ¬(normalize_text (some row.shortCode) = "reserva") := by
      rw [hm]; decide
    rw [if_neg h, if_neg hr, if_pos hm, if_neg hp]
  · intro row h hr hm
    simp only [classify_bucket]
    rw [if_neg h, if_neg hr, if_neg hm]

/-- Witness for `c7_classification_precedence`: the maintenance-precedence
conjunct applied at the accented "Mantención"/"Programada" row. -/
theorem c7_classification_precedence_witness :
    classify_bucket (mkClassRow "Mantención" "Programada" "") = .mant_programada :=
  c7_classification_precedence.2.2.1 (mkClassRow "Mantención" "Programada" "")
    (by decide) (by decide) (by decide)

/-- C6: a parseable explicit `WorkDayStarted` date is returned as-is and
overrides the clock-offset rule; with no label but a parsed start
timestamp the result is the date of `start − 21h` (so a start of
2026-02-17 03:00:00 resolves to 2026-02-16); with neither, the resolver
returns `None` and the `load_daily_metrics` loop leaves every aggregate
untouched while incrementing the unresolvable-row counter (besides the
always-incremented total row counter). -/
theorem c6_operational_day_resolution :
    (∀ (row : EventRow) (s : Option Int) (d : Int),
        row.workDayStarted = some d → get_operational_day row s = some d) ∧
      (∀ (row : EventRow) (s : Int), row.workDayStarted = none →
        get_operational_day row (some s) = some (dateOfDateTime (s - 21 * 3600))) ∧
      get_operational_day (mkClassRow "" "" "") (some (mkDateTime 2026 2 17 3 0 0)) =
        some (civilToDays 2026 2 16) ∧
      (∀ (st : LoadState) (row : EventRow), row.workDayStarted = none → row.time = none →
        load_step st row =
          { st with rows_total := st.rows_total + 1,
                    rows_without_operational_day := st.rows_without_operational_day + 1 }) := by
  refine ⟨?_, ?_, by decide, ?_⟩
  · intro row s d h
    simp [get_operational_day, h]
  · intro row s h
    simp [get_operational_day, h]
  · intro st row h1 h2
    cases hd : row.durationSeconds <;>
      simp [load_step, load_duration_seconds, get_operational_day, h1, h2, hd]

/-- Witness for `c6_operational_day_resolution`: the 21-hour offset rule
applied to the concrete 2026-02-17 03:00:00 start. -/
theorem c6_operational_day_resolution_witness :
    (mkClassRow "" "" "").workDayStarted = none ∧
      get_operational_day (mkClassRow "" "" "") (some (mkDateTime 2026 2 17 3 0 0)) =
        some (dateOfDateTime (mkDateTime 2026 2 17 3 0 0 - 21 * 3600)) :=
  ⟨rfl, c6_operational_day_resolution.2.1 (mkClassRow "" "" "")
    (mkDateTime 2026 2 17 3 0 0) rfl⟩

theorem mem_keys_updateAssoc {κ α : Type} [DecidableEq κ] (l : List (κ × α)) (k k0 : κ)
    (dflt : α) (f : α → α) (h : k0 ∈ (updateAssoc l k dflt f).map Prod.fst) :
    k0 ∈ l.map Prod.fst ∨ k0 = k := by
  induction l with
  | nil =>
      right
      simpa [updateAssoc] using h
  | cons p rest ih =>
      by_cases hp : p.1 = k
      · rw [updateAssoc, if_pos hp] at h
        simp only [List.map_cons, List.mem_cons] at h ⊢
        rcases h with h | h
        · exact Or.inl (Or.inl h)
        · exact Or.inl (Or.inr h)
      · rw [updateAssoc, if_neg hp] at h
        simp only [List.map_cons, List.mem_cons] at h ⊢
        rcases h with h | h
        · exact Or.inl (Or.inl h)
        · rcases ih h with h2 | h2
          · exact Or.inl (Or.inr h2)
          · exact Or.inr h2

theorem brecha_step_skip (fy fm : Option Int) (st : BrechaAggState) (row : EventRow)
    (hd : brecha_duration_hours row ≤ 0) :
    brecha_step fy fm st row = { st with rows_read := st.rows_read + 1 } := by
  unfold brecha_step
  cases get_operational_day row row.time with
  | none => rfl
  | some dd =>
      simp [hd]

theorem brecha_step_daily_metrics (fy fm : Option Int) (st : BrechaAggState) (row : EventRow) :
    (brecha_step fy fm st row).daily_metrics = st.daily_metrics ∨
      ∃ dd, get_operational_day row row.time = some dd ∧ ¬brecha_duration_hours row ≤ 0 ∧
        (brecha_step fy fm st row).daily_metrics =
          updateAssoc st.daily_metrics dd base_day_metrics
            (fun m => brecha_add_event (classify_bucket row) m (brecha_duration_hours row)) := by
  unfold brecha_step
  cases hop : get_operational_day row row.time with
  | none => exact Or.inl rfl
  | some dd =>
      simp only
      split
      · exact Or.inl rfl
      split
      · exact Or.inl rfl
      split
      · exact Or.inl rfl
      · next hdur =>
          refine Or.inr ⟨dd, rfl, hdur, ?_⟩
          cases classify_bucket row <;> simp only <;> split <;> rfl

theorem brecha_fold_day_absent (fy fm : Option Int) (rows : List EventRow) (d : Int)
    (hall : ∀ row ∈ rows, get_operational_day row row.time = some d →
      brecha_duration_hours row ≤ 0) :
    d ∉ ((rows.foldl (brecha_step fy fm) initBrechaAggState).daily_metrics.map Prod.fst) := by
  have step : ∀ (st : BrechaAggState) (row : EventRow),
      (get_operational_day row row.time = some d → brecha_duration_hours row ≤ 0) →
      d ∉ (st.daily_metrics.map Prod.fst) →
      d ∉ ((brecha_step fy fm st row).daily_metrics.map Prod.fst) := by
    intro st row hrow hst hmem
    rcases brecha_step_daily_metrics fy fm st row with hsame | ⟨dd, hop, hdur, hupd⟩
    · rw [hsame] at hmem; exact hst hmem
    · rw [hupd] at hmem
      rcases mem_keys_updateAssoc _ _ _ _ _ hmem with h | h
      · exact hst h
      · subst h
        exact hdur (hrow hop)
  have main : ∀ (l : List EventRow) (st : BrechaAggState),
      (∀ row ∈ l, get_operational_day row row.time = some d →
        brecha_duration_hours row ≤ 0) →
      d ∉ (st.daily_metrics.map Prod.fst) →
      d ∉ ((l.foldl (brecha_step fy fm) st).daily_metrics.map Prod.fst) := by
    intro l
    induction l with
    | nil => intro st _ hst; exact hst
    | cons row rest ih =>
        intro st hl hst
        exact ih _ (fun r hr => hl r (List.mem_cons_of_mem _ hr))
          (step st row (hl row (List.mem_cons_self _ _)) hst)
  exact main rows initBrechaAggState hall (by simp [initBrechaAggState])

/-- C10: in the gap-analysis daily aggregator, an event whose coerced
duration is not positive is skipped before any daily record is created
(the step leaves the whole state unchanged except the row counter), and
consequently an operational day all of whose events have non-positive
coerced duration never appears in `days` — the list whose length is
`day_count`, the divisor of every average-hours-per-day output. -/
theorem c10_nonpositive_durations_skipped :
    (∀ (fy fm : Option Int) (st : BrechaAggState) (row : EventRow),
        brecha_duration_hours row ≤ 0 →
        brecha_step fy fm st row = { st with rows_read := st.rows_read + 1 }) ∧
      (∀ (fy fm : Option Int) (rows : List EventRow) (d : Int),
        (∀ row ∈ rows, get_operational_day row row.time = some d →
          brecha_duration_hours row ≤ 0) →
        d ∉ (aggregate_daily_data rows fy fm).days ∧
          (aggregate_daily_data rows fy fm).day_count =
            (aggregate_daily_data rows fy fm).days.length) := by
  refine ⟨brecha_step_skip, ?_⟩
  intro fy fm rows d hall
  refine ⟨?_, rfl⟩
  intro hmem
  have hmem2 :
      d ∈ ((rows.foldl (brecha_step fy fm) initBrechaAggState).daily_metrics.map Prod.fst) := by
    have := hmem
    rw [aggregate_daily_data] at this
    simpa using (List.mem_mergeSort).mp this
  exact brecha_fold_day_absent fy fm rows d hall hmem2

/-- One concrete event row for the C10 witness: resolvable to day 20500
but with an explicit zero duration. -/
def zeroDurRow : EventRow :=
  { mkClassRow "Efectivo" "" "" with workDayStarted := some 20500,
                                     durationSeconds := some 0 }

/-- Witness for `c10_nonpositive_durations_skipped`: with the single
zero-duration event above, its day produces no daily record. -/
theorem c10_nonpositive_durations_skipped_witness :
    (∀ row ∈ [zeroDurRow], get_operational_day row row.time = some 20500 →
        brecha_duration_hours row ≤ 0) ∧
      20500 ∉ (aggregate_daily_data [zeroDurRow] none none).days :=
  ⟨by intro row hr _
      rw [List.mem_singleton] at hr
      subst hr
      norm_num [brecha_duration_hours, zeroDurRow, mkClassRow],
    (c10_nonpositive_durations_skipped.2 none none [zeroDurRow] 20500
      (by intro row hr _
          rw [List.mem_singleton] at hr
          subst hr
          norm_num [brecha_duration_hours, zeroDurRow, mkClassRow])).1⟩

/-- The daily rows of one group: those whose period key matches. -/
def groupRows (g : Granularity) (br : Bool) (p : List DailyRowP)
    (k : Int × Option Int × String) : List DailyRowP :=
  p.filter (fun r => decide (periodKey g br r = k))

theorem mem_keys_updateAssoc_of {κ α : Type} [DecidableEq κ] (l : List (κ × α)) (k k0 : κ)
    (dflt : α) (f : α → α) (h : k0 ∈ l.map Prod.fst ∨ k0 = k) :
    k0 ∈ (updateAssoc l k dflt f).map Prod.fst := by
  induction l with
  | nil =>
      rcases h with h | h
      · simp at h
      · simp [updateAssoc, h]
  | cons p rest ih =>
      by_cases hp : p.1 = k
      · rw [updateAssoc, if_pos hp]
        subst hp
        simp only [List.map_cons, List.mem_cons] at h ⊢
        tauto
      · rw [updateAssoc, if_neg hp]
        simp only [List.map_cons, List.mem_cons] at h ⊢
        tauto

theorem nodup_keys_updateAssoc {κ α : Type} [DecidableEq κ] (l : List (κ × α)) (k : κ)
    (dflt : α) (f : α → α) (h : (l.map Prod.fst).Nodup) :
    ((updateAssoc l k dflt f).map Prod.fst).Nodup := by
  induction l with
  | nil => simp [updateAssoc]
  | cons p rest ih =>
      rw [List.map_cons, List.nodup_cons] at h
      by_cases hp : p.1 = k
      · rw [updateAssoc, if_pos hp, List.map_cons, List.nodup_cons]
        exact h
      · rw [updateAssoc, if_neg hp, List.map_cons, List.nodup_cons]
        refine ⟨?_, ih h.2⟩
        intro hmem
        rcases mem_keys_updateAssoc _ _ _ _ _ hmem with h2 | h2
        · exact h.1 h2
        · exact hp h2

theorem mem_updateAssoc_cases {κ α : Type} [DecidableEq κ] (l : List (κ × α)) (k : κ)
    (dflt : α) (f : α → α) (hnodup : (l.map Prod.fst).Nodup)
    (kv : κ × α) (h : kv ∈ updateAssoc l k dflt f) :
    (kv ∈ l ∧ kv.1 ≠ k) ∨
      (∃ v, kv.1 = k ∧ kv.2 = f v ∧
        ((k, v) ∈ l ∨ (v = dflt ∧ k ∉ l.map Prod.fst))) := by
  induction l with
  | nil =>
      rw [updateAssoc, List.mem_singleton] at h
      refine Or.inr ⟨dflt, ?_, ?_, Or.inr ⟨rfl, by simp⟩⟩
      · rw [h]
      · rw [h]
  | cons p rest ih =>
      rw [List.map_cons, List.nodup_cons] at hnodup
      by_cases hp : p.1 = k
      · rw [updateAssoc, if_pos hp, List.mem_cons] at h
        rcases h with h | h
        · refine Or.inr ⟨p.2, ?_, ?_, Or.inl ?_⟩
          · rw [h]; exact hp
          · rw [h]
          · rw [← hp]
            exact List.mem_cons_self _ _
        · refine Or.inl ⟨List.mem_cons_of_mem _ h, ?_⟩
          intro hk
          refine hnodup.1 ?_
          rw [hp, ← hk]
          exact List.mem_map_of_mem Prod.fst h
      · rw [updateAssoc, if_neg hp, List.mem_cons] at h
        rcases h with h | h
        · exact Or.inl ⟨by rw [h]; exact List.mem_cons_self _ _, by rw [h]; exact hp⟩
        · rcases ih hnodup.2 h with ⟨hmem, hne⟩ | ⟨v, hk1, hk2, hv⟩
          · exact Or.inl ⟨List.mem_cons_of_mem _ hmem, hne⟩
          · refine Or.inr ⟨v, hk1, hk2, ?_⟩
            rcases hv with hv | ⟨hv1, hv2⟩
            · exact Or.inl (List.mem_cons_of_mem _ hv)
            · refine Or.inr ⟨hv1, ?_⟩
              rw [List.map_cons, List.mem_cons]
              rintro (h2 | h2)
              · exact hp h2.symm
              · exact hv2 h2

theorem groupRows_append_ne (g : Granularity) (br : Bool) (p : List DailyRowP)
    (row : DailyRowP) (k : Int × Option Int × String) (hne : periodKey g br row ≠ k) :
    groupRows g br (p ++ [row]) k = groupRows g br p k := by
  rw [groupRows, groupRows, List.filter_append]
  simp [hne]

theorem groupRows_append_eq (g : Granularity) (br : Bool) (p : List DailyRowP)
    (row : DailyRowP) :
    groupRows g br (p ++ [row]) (periodKey g br row) =
      groupRows g br p (periodKey g br row) ++ [row] := by
  rw [groupRows, groupRows, List.filter_append]
  simp

/-- The grouping-fold invariant for one dictionary entry of
`aggregate_period`: the stored identification fields are the key, and the
day count and the six duration totals are, respectively, the number of and
the field sums over the processed daily rows of that key. -/
def PeriodEntryOk (g : Granularity) (br : Bool) (p : List DailyRowP)
    (kv : (Int × Option Int × String) × PeriodRec) : Prop :=
  (kv.2.anio, kv.2.mes, kv.2.perforadora) = kv.1 ∧
    kv.2.dias_con_datos = (groupRows g br p kv.1).length ∧
    kv.2.horas_totales = ((groupRows g br p kv.1).map DailyRowP.horas_totales).sum ∧
    kv.2.horas_efectivo = ((groupRows g br p kv.1).map DailyRowP.horas_efectivo).sum ∧
    kv.2.horas_reserva = ((groupRows g br p kv.1).map DailyRowP.horas_reserva).sum ∧
    kv.2.horas_mant_programada =
      ((groupRows g br p kv.1).map DailyRowP.horas_mant_programada).sum ∧
    kv.2.horas_mant_no_programada =
      ((groupRows g br p kv.1).map DailyRowP.horas_mant_no_programada).sum ∧
    kv.2.horas_otras = ((groupRows g br p kv.1).map DailyRowP.horas_otras).sum

/-- The grouping-fold invariant for the whole dictionary: every entry is
correct, every processed row's key has an entry, and keys are unique. -/
def PeriodStateOk (g : Granularity) (br : Bool) (p : List DailyRowP)
    (l : List ((Int × Option Int × String) × PeriodRec)) : Prop :=
  (∀ kv ∈ l, PeriodEntryOk g br p kv) ∧
    (∀ r ∈ p, periodKey g br r ∈ l.map Prod.fst) ∧
    (l.map Prod.fst).Nodup

theorem periodStateOk_step (g : Granularity) (br : Bool) (p : List DailyRowP)
    (l : List ((Int × Option Int × String) × PeriodRec)) (row : DailyRowP)
    (h : PeriodStateOk g br p l) :
    PeriodStateOk g br (p ++ [row])
      (updateAssoc l (periodKey g br row) (initPeriodRec (periodKey g br row))
        (accumPeriod row)) := by
  obtain ⟨hent, hcomp, hnodup⟩ := h
  refine ⟨?_, ?_, nodup_keys_updateAssoc _ _ _ _ hnodup⟩
  · intro kv hkv
    obtain ⟨kk, vv⟩ := kv
    rcases mem_updateAssoc_cases _ _ _ _ hnodup _ hkv with ⟨hmem, hne⟩ | ⟨v, hk1, hk2, hv⟩
    · have he := hent _ hmem
      rw [PeriodEntryOk] at he ⊢
      simp only at he ⊢
      rw [groupRows_append_ne g br p row kk (Ne.symm hne)]
      exact he
    · simp only at hk1 hk2
      subst hk1
      subst hk2
      rcases hv with hv | ⟨hv1, hv2⟩
      · have he := hent _ hv
        rw [PeriodEntryOk] at he ⊢
        simp only at he ⊢
        rw [groupRows_append_eq g br p row]
        obtain ⟨he0, he1, he2, he3, he4, he5, he6, he7⟩ := he
        refine ⟨?_, ?_, ?_, ?_, ?_, ?_, ?_, ?_⟩ <;>
          simp [accumPeriod, he0, he1, he2, he3, he4, he5, he6, he7]
      · subst hv1
        have hempty : groupRows g br p (periodKey g br row) = [] := by
          rw [groupRows, List.filter_eq_nil_iff]
          intro r hr
          simp only [decide_eq_true_eq]
          intro hkey
          exact hv2 (hkey ▸ hcomp r hr)
        rw [PeriodEntryOk]
        simp only
        rw [groupRows_append_eq g br p row, hempty]
        refine ⟨?_, ?_, ?_, ?_, ?_, ?_, ?_, ?_⟩ <;>
          simp [accumPeriod, initPeriodRec]
  · intro r hr
    rcases List.mem_append.mp hr with hr | hr
    · exact mem_keys_updateAssoc_of _ _ _ _ _ (Or.inl (hcomp r hr))
    · rw [List.mem_singleton] at hr
      subst hr
      exact mem_keys_updateAssoc_of _ _ _ _ _ (Or.inr rfl)

theorem periodStateOk_fold (g : Granularity) (br : Bool) (rows : List DailyRowP) :
    PeriodStateOk g br rows
      (rows.foldl
        (fun acc row =>
          updateAssoc acc (periodKey g br row) (initPeriodRec (periodKey g br row))
            (accumPeriod row))
        []) := by
  have main : ∀ (l : List DailyRowP) (p : List DailyRowP)
      (st : List ((Int × Option Int × String) × PeriodRec)), PeriodStateOk g br p st →
      PeriodStateOk g br (p ++ l)
        (l.foldl
          (fun acc row =>
            updateAssoc acc (periodKey g br row) (initPeriodRec (periodKey g br row))
              (accumPeriod row))
          st) := by
    intro l
    induction l with
    | nil => intro p st h; simpa using h
    | cons row rest ih =>
        intro p st h
        have h2 := ih (p ++ [row]) _ (periodStateOk_step g br p st row h)
        rw [List.append_assoc] at h2
        simpa using h2
  have h0 : PeriodStateOk g br [] [] := by
    refine ⟨?_, ?_, ?_⟩ <;> simp
  simpa using main rows [] [] h0

theorem finalizePeriod_fields (r : PeriodRec) :
    (finalizePeriod r).anio = r.anio ∧ (finalizePeriod r).mes = r.mes ∧
      (finalizePeriod r).perforadora = r.perforadora ∧
      (finalizePeriod r).dias_con_datos = r.dias_con_datos ∧
      (finalizePeriod r).horas_totales = r.horas_totales ∧
      (finalizePeriod r).horas_efectivo = r.horas_efectivo ∧
      (finalizePeriod r).horas_reserva = r.horas_reserva ∧
      (finalizePeriod r).horas_mant_programada = r.horas_mant_programada ∧
      (finalizePeriod r).horas_mant_no_programada = r.horas_mant_no_programada ∧
      (finalizePeriod r).horas_otras = r.horas_otras ∧
      (finalizePeriod r).horas_operativas =
        max (r.horas_totales - r.horas_mant_programada - r.horas_mant_no_programada) 0 ∧
      (finalizePeriod r).disponibilidad_ratio =
        (if 0 < r.horas_totales then
          max (r.horas_totales - r.horas_mant_programada - r.horas_mant_no_programada) 0 /
            r.horas_totales
        else 0) ∧
      (finalizePeriod r).uebd_ratio =
        (if 0 < max (r.horas_totales - r.horas_mant_programada - r.horas_mant_no_programada) 0
        then
          r.horas_efectivo /
            max (r.horas_totales - r.horas_mant_programada - r.horas_mant_no_programada) 0
        else 0) := by
  refine ⟨rfl, rfl, rfl, rfl, rfl, rfl, rfl, rfl, rfl, rfl, rfl, rfl, rfl⟩

/-- C5: every record produced by `aggregate_period` carries, in each of the
six duration fields, the exact sum of that field over the daily rows of
its group, and its availability and UEBD ratios are recomputed from those
summed durations with the daily-level formulas (max-floored operative
hours, zero on zero denominators) — never by averaging daily ratios. -/
theorem c5_period_aggregation (rows : List DailyRowP) (g : Granularity) (br : Bool) :
    ∀ rec ∈ aggregate_period rows g br,
      rec.horas_totales =
          ((groupRows g br rows (rec.anio, rec.mes, rec.perforadora)).map
            DailyRowP.horas_totales).sum ∧
        rec.horas_efectivo =
          ((groupRows g br rows (rec.anio, rec.mes, rec.perforadora)).map
            DailyRowP.horas_efectivo).sum ∧
        rec.horas_reserva =
          ((groupRows g br rows (rec.anio, rec.mes, rec.perforadora)).map
            DailyRowP.horas_reserva).sum ∧
        rec.horas_mant_programada =
          ((groupRows g br rows (rec.anio, rec.mes, rec.perforadora)).map
            DailyRowP.horas_mant_programada).sum ∧
        rec.horas_mant_no_programada =
          ((groupRows g br rows (rec.anio, rec.mes, rec.perforadora)).map
            DailyRowP.horas_mant_no_programada).sum ∧
        rec.horas_otras =
          ((groupRows g br rows (rec.anio, rec.mes, rec.perforadora)).map
            DailyRowP.horas_otras).sum ∧
        rec.dias_con_datos =
          (groupRows g br rows (rec.anio, rec.mes, rec.perforadora)).length ∧
        rec.horas_operativas =
          max (rec.horas_totales - rec.horas_mant_programada - rec.horas_mant_no_programada) 0 ∧
        rec.disponibilidad_ratio =
          (if 0 < rec.horas_totales then rec.horas_operativas / rec.horas_totales else 0) ∧
        rec.uebd_ratio =
          (if 0 < rec.horas_operativas then rec.horas_efectivo / rec.horas_operativas
          else 0) := by
  intro rec hrec
  rw [aggregate_period] at hrec
  simp only at hrec
  obtain ⟨r0, hr0, hfin⟩ := List.mem_map.mp hrec
  have hr0g := (List.mem_mergeSort).mp hr0
  obtain ⟨kv, hkv, hsnd⟩ := List.mem_map.mp hr0g
  obtain ⟨he0, he1, he2, he3, he4, he5, he6, he7⟩ := (periodStateOk_fold g br rows).1 kv hkv
  obtain ⟨hf0, hf1, hf2, hf3, hf4, hf5, hf6, hf7, hf8, hf9, hf10, hf11, hf12⟩ :=
    finalizePeriod_fields r0
  subst hfin
  subst hsnd
  have hkey : ((finalizePeriod kv.2).anio, (finalizePeriod kv.2).mes,
      (finalizePeriod kv.2).perforadora) = kv.1 := by
    rw [hf0, hf1, hf2]
    exact he0
  rw [hkey, hf3, hf4, hf5, hf6, hf7, hf8, hf9, hf10, hf11, hf12]
  exact ⟨he2, he3, he4, he5, he6, he7, he1, rfl, rfl, rfl⟩

/-- One concrete daily row for the C5 witness. -/
def rowW : DailyRowP :=
  { anio := 2025, mes := 2, perforadora := "PF1", horas_totales := 24,
    horas_efectivo := 10, horas_reserva := 2, horas_mant_programada := 3,
    horas_mant_no_programada := 1, horas_otras := 8 }

/-- Witness for `c5_period_aggregation`: applied to the single-row input. -/
theorem c5_period_aggregation_witness :
    finalizePeriod (accumPeriod rowW (initPeriodRec (periodKey .mensual true rowW))) ∈
        aggregate_period [rowW] .mensual true ∧
      (finalizePeriod (accumPeriod rowW (initPeriodRec (periodKey .mensual true rowW)))).horas_totales =
        ((groupRows .mensual true [rowW]
            ((finalizePeriod (accumPeriod rowW (initPeriodRec (periodKey .mensual true rowW)))).anio,
              (finalizePeriod (accumPeriod rowW (initPeriodRec (periodKey .mensual true rowW)))).mes,
              (finalizePeriod (accumPeriod rowW (initPeriodRec (periodKey .mensual true rowW)))).perforadora)).map
          DailyRowP.horas_totales).sum := by
  have hmem : finalizePeriod (accumPeriod rowW (initPeriodRec (periodKey .mensual true rowW))) ∈
      aggregate_period [rowW] .mensual true := by
    rw [aggregate_period]
    simp [updateAssoc]
  exact ⟨hmem, (c5_period_aggregation [rowW] .mensual true _ hmem).1⟩

theorem rank_rows_map {α : Type} (f : CodeDeltaRow → α)
    (hf : ∀ (r : CodeDeltaRow) (i : Nat) (p q : ℚ),
      f { r with ranking_impacto := some i, participacion_gap_pct := some p,
                 impacto_acumulado_pp := some q } = f r)
    (t : ℚ) :
    ∀ (i : Nat) (a : ℚ) (l : List CodeDeltaRow), (rank_rows t i a l).map f = l.map f := by
  intro i a l
  induction l generalizing i a with
  | nil => rfl
  | cons row rest ih =>
      rw [rank_rows]
      simp only [List.map_cons]
      rw [hf, ih]

theorem sum_map_mergeSort {α β : Type} [AddCommMonoid β] (l : List α) (le : α → α → Bool)
    (f : α → β) : ((l.mergeSort le).map f).sum = (l.map f).sum :=
  ((List.mergeSort_perm l le).map f).sum_eq

theorem attribute_gap_sum (delta_rows : List CodeDeltaRow) (D gap : ℚ) (days : Int)
    (hD : ¬ D ≤ 0) :
    sum_impacto_atribuido (attribute_gap_to_codes delta_rows D gap days) =
      (delta_rows.map (fun r => r.delta_horas_dia_positivo / D * 100)).sum *
        (if 0 < (delta_rows.map (fun r => r.delta_horas_dia_positivo / D * 100)).sum ∧ 0 < gap
        then gap / (delta_rows.map (fun r => r.delta_horas_dia_positivo / D * 100)).sum
        else 0) := by
  rw [sum_impacto_atribuido, attribute_gap_to_codes, if_neg hD]
  simp only
  rw [rank_rows_map (fun r => r.impacto_atribuido_pp.getD 0) (fun r i p q => rfl)]
  rw [sum_map_mergeSort]
  simp only [List.map_map, Function.comp_def, Option.getD_some]
  rw [List.sum_map_mul_right]

/-- C1: with a positive denominator, a positive raw percentage-point sum
and a positive measured gap, the attributed impacts that
`attribute_gap_to_codes` writes sum to the gap within the 1e-6 absolute
tolerance (exactly, in the rational model). -/
theorem c1_attribution_roundtrip (delta_rows : List CodeDeltaRow) (D gap : ℚ) (days : Int)
    (hD : 0 < D)
    (hraw : 0 < (delta_rows.map (fun r => r.delta_horas_dia_positivo / D * 100)).sum)
    (hgap : 0 < gap) :
    |sum_impacto_atribuido (attribute_gap_to_codes delta_rows D gap days) - gap| ≤
      1 / 1000000 := by
  rw [attribute_gap_sum delta_rows D gap days (not_le.mpr hD), if_pos ⟨hraw, hgap⟩]
  have hcancel :
      (delta_rows.map (fun r => r.delta_horas_dia_positivo / D * 100)).sum *
        (gap / (delta_rows.map (fun r => r.delta_horas_dia_positivo / D * 100)).sum) = gap := by
    rw [mul_comm]
    exact div_mul_cancel₀ gap (ne_of_gt hraw)
  rw [hcancel, sub_self, abs_zero]
  norm_num

/-- The §8 worked example's single code-delta row: baseline 1.0 h/day,
comparison 2.5 h/day. -/
def rowC1 : CodeDeltaRow :=
  { codigo := "450_ScheduledService", baseline_horas_dia := 1, comparado_horas_dia := 5 / 2,
    delta_horas_dia := 3 / 2, delta_horas_dia_positivo := 3 / 2, impacto_raw_pp := none,
    factor_escalamiento := none, impacto_atribuido_pp := none,
    perdida_horas_dia_atribuida := none, perdida_horas_mes_atribuida := none,
    ranking_impacto := none, participacion_gap_pct := none, impacto_acumulado_pp := none }

/-- Witness for `c1_attribution_roundtrip`: the §8 example with
denominator 20 h/day and measured gap 7.5 pp. -/
theorem c1_attribution_roundtrip_witness :
    (0 : ℚ) < 20 ∧
      0 < ([rowC1].map (fun r => r.delta_horas_dia_positivo / 20 * 100)).sum ∧
      (0 : ℚ) < 15 / 2 ∧
      |sum_impacto_atribuido (attribute_gap_to_codes [rowC1] 20 (15 / 2) 28) - 15 / 2| ≤
        1 / 1000000 :=
  ⟨by norm_num, by norm_num [rowC1], by norm_num,
    c1_attribution_roundtrip [rowC1] 20 (15 / 2) 28 (by norm_num)
      (by norm_num [rowC1]) (by norm_num)⟩

/-- C2 (divergence witness): on the non-positive-denominator early return,
`attribute_gap_to_codes` zeroes `impacto_raw_pp`, `factor_escalamiento`,
`impacto_atribuido_pp` and `perdida_horas_mes_atribuida` but never writes
`perdida_horas_dia_atribuida` (it stays absent, here `none`), even though
that key is among the output columns; by contrast, the zero-gap degenerate
case with a positive denominator does set every impact field, including
`perdida_horas_dia_atribuida`, to zero. -/
theorem c2_degenerate_attribution_bug :
    attribute_gap_to_codes [rowC1] 0 5 28 =
        [{ rowC1 with impacto_raw_pp := some 0, factor_escalamiento := some 0,
                      impacto_atribuido_pp := some 0,
                      perdida_horas_mes_atribuida := some 0 }] ∧
      (attribute_gap_to_codes [rowC1] 0 5 28).map
          (fun r => r.perdida_horas_dia_atribuida) = [none] ∧
      attribute_gap_to_codes [rowC1] 20 0 28 =
        [{ rowC1 with impacto_raw_pp := some (15 / 2), factor_escalamiento := some 0,
                      impacto_atribuido_pp := some 0,
                      perdida_horas_dia_atribuida := some 0,
                      perdida_horas_mes_atribuida := some 0, ranking_impacto := some 1,
                      participacion_gap_pct := some 0, impacto_acumulado_pp := some 0 }] := by
  refine ⟨?_, ?_, ?_⟩
  · rw [attribute_gap_to_codes, if_pos (by norm_num : (0 : ℚ) ≤ 0)]
    rfl
  · rw [attribute_gap_to_codes, if_pos (by norm_num : (0 : ℚ) ≤ 0)]
    rfl
  · rw [attribute_gap_to_codes, if_neg (by norm_num : ¬(20 : ℚ) ≤ 0)]
    norm_num [rowC1, rank_rows, List.mergeSort_singleton]

/-! ## Monotonicity infrastructure for gap attribution -/

/-- Python dict assignment `c[k] = v` for a key already present: replace
the value bound to `k`, keeping insertion order. -/
def dictSet (d : List (String × ℚ)) (k : String) (v : ℚ) : List (String × ℚ) :=
  d.map (fun p => if p.1 = k then (p.1, v) else p)

/-- The raw percentage-point impact of one code, as a function of the two
average-hours-per-day dicts: `max(compare − baseline, 0) / D × 100`. -/
def rawOf (b c : List (String × ℚ)) (D : ℚ) (code : String) : ℚ :=
  max ((lookupAssoc c code).getD 0 - (lookupAssoc b code).getD 0) 0 / D * 100

/-- The raw percentage-point sum over the code union. -/
def rawSumOf (b c : List (String × ℚ)) (D : ℚ) : ℚ :=
  ((unionCodes b c).map (rawOf b c D)).sum

/-- The single scaling factor of `attribute_gap_to_codes` as a function of
the inputs. -/
def factorOf (b c : List (String × ℚ)) (D gap : ℚ) : ℚ :=
  if 0 < rawSumOf b c D ∧ 0 < gap then gap / rawSumOf b c D else 0

/-- The attributed impact recorded for code `k` in an attribution table
(0 when the code has no row, mirroring `row.get(field, 0.0)`). -/
def attributedFor (rows : List CodeDeltaRow) (k : String) : ℚ :=
  match rows.find? (fun r => decide (r.codigo = k)) with
  | some r => r.impacto_atribuido_pp.getD 0
  | none => 0

theorem keys_dictSet (c : List (String × ℚ)) (k : String) (v : ℚ) :
    (dictSet c k v).map Prod.fst = c.map Prod.fst := by
  rw [dictSet, List.map_map]
  refine List.map_congr_left ?_
  intro p _
  by_cases hp : p.1 = k <;> simp [hp]

theorem lookup_dictSet_ne (c : List (String × ℚ)) (k : String) (v : ℚ) (code : String)
    (hne : code ≠ k) : lookupAssoc (dictSet c k v) code = lookupAssoc c code := by
  induction c with
  | nil => rfl
  | cons p rest ih =>
      by_cases hp : p.1 = k
      · rw [dictSet, List.map_cons, if_pos hp, lookupAssoc, lookupAssoc]
        have h1 : ¬((p.1, v).1 = code) := by simp only; rw [hp]; exact fun h => hne h.symm
        have h2 : ¬(p.1 = code) := by rw [hp]; exact fun h => hne h.symm
        rw [List.find?_cons_of_neg _ (by simpa using h1),
          List.find?_cons_of_neg _ (by simpa using h2)]
        exact ih
      · rw [dictSet, List.map_cons, if_neg hp, lookupAssoc, lookupAssoc]
        by_cases hpc : p.1 = code
        · rw [List.find?_cons_of_pos _ (by simpa using hpc),
            List.find?_cons_of_pos _ (by simpa using hpc)]
        · rw [List.find?_cons_of_neg _ (by simpa using hpc),
            List.find?_cons_of_neg _ (by simpa using hpc)]
          exact ih

theorem lookup_dictSet_eq (c : List (String × ℚ)) (k : String) (v : ℚ)
    (hk : k ∈ c.map Prod.fst) : lookupAssoc (dictSet c k v) k = some v := by
  induction c with
  | nil => simp at hk
  | cons p rest ih =>
      by_cases hp : p.1 = k
      · rw [dictSet, List.map_cons, if_pos hp, lookupAssoc]
        rw [List.find?_cons_of_pos _ (by simpa using hp)]
        rfl
      · rw [List.map_cons, List.mem_cons] at hk
        rcases hk with hk | hk
        · exact absurd hk.symm hp
        · rw [dictSet, List.map_cons, if_neg hp, lookupAssoc]
          rw [List.find?_cons_of_neg _ (by simpa using hp)]
          exact ih hk

theorem unionCodes_dictSet (b c : List (String × ℚ)) (k : String) (v : ℚ) :
    unionCodes b (dictSet c k v) = unionCodes b c := by
  rw [unionCodes, unionCodes, keys_dictSet]

theorem unionCodes_nodup (b c : List (String × ℚ)) : (unionCodes b c).Nodup :=
  ((List.mergeSort_perm _ _).nodup_iff).mpr (List.nodup_dedup _)

theorem mem_unionCodes_right (b c : List (String × ℚ)) (k : String)
    (hk : k ∈ c.map Prod.fst) : k ∈ unionCodes b c :=
  (List.mem_mergeSort).mpr (List.mem_dedup.mpr (List.mem_append.mpr (Or.inr hk)))

theorem rawOf_nonneg (b c : List (String × ℚ)) (D : ℚ) (code : String) (hD : 0 < D) :
    0 ≤ rawOf b c D code := by
  rw [rawOf]
  have h1 : (0 : ℚ) ≤ max ((lookupAssoc c code).getD 0 - (lookupAssoc b code).getD 0) 0 :=
    le_max_right _ _
  positivity

theorem sum_split_at (u : List String) (_hnd : u.Nodup) (k : String) (hk : k ∈ u)
    (f : String → ℚ) : (u.map f).sum = f k + ((u.erase k).map f).sum := by
  rw [((List.perm_cons_erase hk).map f).sum_eq, List.map_cons, List.sum_cons]

theorem rawSumOf_dictSet (b c : List (String × ℚ)) (D : ℚ) (k : String) (v : ℚ)
    (hk : k ∈ c.map Prod.fst) :
    rawSumOf b (dictSet c k v) D =
      rawOf b (dictSet c k v) D k + (rawSumOf b c D - rawOf b c D k) := by
  have hku : k ∈ unionCodes b c := mem_unionCodes_right b c k hk
  have hnd := unionCodes_nodup b c
  have h1 : rawSumOf b c D =
      rawOf b c D k + (((unionCodes b c).erase k).map (rawOf b c D)).sum := by
    rw [rawSumOf]
    exact sum_split_at _ hnd k hku _
  have h2 : rawSumOf b (dictSet c k v) D =
      rawOf b (dictSet c k v) D k +
        (((unionCodes b c).erase k).map (rawOf b (dictSet c k v) D)).sum := by
    rw [rawSumOf, unionCodes_dictSet]
    exact sum_split_at _ hnd k hku _
  have h3 : ((unionCodes b c).erase k).map (rawOf b (dictSet c k v) D) =
      ((unionCodes b c).erase k).map (rawOf b c D) := by
    refine List.map_congr_left ?_
    intro x hx
    have hxne : x ≠ k := by
      intro he
      subst he
      exact hnd.not_mem_erase hx
    rw [rawOf, rawOf, lookup_dictSet_ne c k v x hxne]
  rw [h2, h3, h1]
  ring

theorem mem_rank_rows (t : ℚ) :
    ∀ (i : Nat) (a : ℚ) (l : List CodeDeltaRow) (r : CodeDeltaRow), r ∈ rank_rows t i a l →
      ∃ r0 ∈ l, r.codigo = r0.codigo ∧ r.impacto_atribuido_pp = r0.impacto_atribuido_pp := by
  intro i a l
  induction l generalizing i a with
  | nil =>
      intro r hr
      rw [rank_rows] at hr
      exact absurd hr (List.not_mem_nil r)
  | cons row rest ih =>
      intro r hr
      rw [rank_rows] at hr
      rcases List.mem_cons.mp hr with hr | hr
      · exact ⟨row, List.mem_cons_self _ _, by rw [hr], by rw [hr]⟩
      · obtain ⟨r0, hr0, h1, h2⟩ := ih _ _ _ hr
        exact ⟨r0, List.mem_cons_of_mem _ hr0, h1, h2⟩

theorem build_raw_sum (b c : List (String × ℚ)) (D : ℚ) :
    ((build_code_delta_rows b c).map
        (fun r => r.delta_horas_dia_positivo / D * 100)).sum = rawSumOf b c D := by
  rw [build_code_delta_rows, sum_map_mergeSort, List.map_map, rawSumOf]
  rfl

theorem attribute_map_codigo (rows : List CodeDeltaRow) (D gap : ℚ) (days : Int)
    (hD : ¬ D ≤ 0) :
    List.Perm ((attribute_gap_to_codes rows D gap days).map (fun r => r.codigo))
      (rows.map (fun r => r.codigo)) := by
  rw [attribute_gap_to_codes, if_neg hD]
  simp only
  rw [rank_rows_map (fun r => r.codigo) (fun r i p q => rfl)]
  refine ((List.mergeSort_perm _ _).map _).trans ?_
  rw [List.map_map, List.map_map]
  exact List.Perm.refl _

theorem build_map_codigo (b c : List (String × ℚ)) :
    List.Perm ((build_code_delta_rows b c).map (fun r => r.codigo)) (unionCodes b c) := by
  rw [build_code_delta_rows]
  refine ((List.mergeSort_perm _ _).map _).trans ?_
  rw [List.map_map]
  have hid : List.map ((fun (r : CodeDeltaRow) => r.codigo) ∘ mkDeltaRow b c) (unionCodes b c) =
      List.map id (unionCodes b c) := rfl
  rw [hid, List.map_id]

theorem attribute_build_mem (b c : List (String × ℚ)) (D gap : ℚ) (days : Int)
    (hD : ¬ D ≤ 0) (r : CodeDeltaRow)
    (hr : r ∈ attribute_gap_to_codes (build_code_delta_rows b c) D gap days) :
    r.codigo ∈ unionCodes b c ∧
      r.impacto_atribuido_pp = some (rawOf b c D r.codigo * factorOf b c D gap) := by
  rw [attribute_gap_to_codes, if_neg hD] at hr
  simp only at hr
  obtain ⟨r1, hr1, hcod, himp⟩ := mem_rank_rows _ _ _ _ _ hr
  have hr1b := (List.mem_mergeSort).mp hr1
  obtain ⟨r2, hr2, hg2⟩ := List.mem_map.mp hr1b
  obtain ⟨r3, hr3, hg1⟩ := List.mem_map.mp hr2
  rw [build_code_delta_rows] at hr3
  have hr3b := (List.mem_mergeSort).mp hr3
  obtain ⟨code, hcode, hmk⟩ := List.mem_map.mp hr3b
  subst hg2
  subst hg1
  subst hmk
  constructor
  · rw [hcod]
    exact hcode
  · rw [himp, hcod]
    simp only [factorOf, ← build_raw_sum b c D]
    rfl

theorem attributedFor_build (b c : List (String × ℚ)) (D gap : ℚ) (days : Int)
    (hD : ¬ D ≤ 0) (k : String) (hk : k ∈ unionCodes b c) :
    attributedFor (attribute_gap_to_codes (build_code_delta_rows b c) D gap days) k =
      rawOf b c D k * factorOf b c D gap := by
  have hex : ∃ r ∈ attribute_gap_to_codes (build_code_delta_rows b c) D gap days,
      r.codigo = k := by
    have h1 : k ∈ (build_code_delta_rows b c).map (fun r => r.codigo) :=
      (build_map_codigo b c).mem_iff.mpr hk
    have h2 : k ∈ (attribute_gap_to_codes (build_code_delta_rows b c) D gap days).map
        (fun r => r.codigo) :=
      (attribute_map_codigo _ D gap days hD).mem_iff.mpr h1
    obtain ⟨r, hr, hrk⟩ := List.mem_map.mp h2
    exact ⟨r, hr, hrk⟩
  rw [attributedFor]
  cases hfind : (attribute_gap_to_codes (build_code_delta_rows b c) D gap days).find?
      (fun r => decide (r.codigo = k)) with
  | none =>
      obtain ⟨r, hr, hrk⟩ := hex
      have hcontra := List.find?_eq_none.mp hfind r hr
      simp [hrk] at hcontra
  | some r =>
      have hmem := List.mem_of_find?_eq_some hfind
      have hrk : r.codigo = k := by simpa using List.find?_some hfind
      obtain ⟨-, himp⟩ := attribute_build_mem b c D gap days hD r hmem
      show r.impacto_atribuido_pp.getD 0 = rawOf b c D k * factorOf b c D gap
      rw [himp, Option.getD_some, hrk]

theorem attr_mono_arith (x1 x2 S1 S2 gap : ℚ) (hx1 : 0 ≤ x1) (hx12 : x1 ≤ x2)
    (hrest : 0 ≤ S1 - x1) (hS : S2 - x2 = S1 - x1) :
    x1 * (if 0 < S1 ∧ 0 < gap then gap / S1 else 0) ≤
      x2 * (if 0 < S2 ∧ 0 < gap then gap / S2 else 0) := by
  by_cases hgap : 0 < gap
  · by_cases hS1p : 0 < S1
    · have hS2p : 0 < S2 := by linarith
      rw [if_pos ⟨hS1p, hgap⟩, if_pos ⟨hS2p, hgap⟩, ← mul_div_assoc, ← mul_div_assoc,
        div_le_div_iff₀ hS1p hS2p]
      have hS2eq : S2 = x2 + (S1 - x1) := by linarith
      rw [hS2eq]
      nlinarith [mul_nonneg (mul_nonneg hgap.le (sub_nonneg.mpr hx12)) hrest]
    · rw [if_neg (fun h => hS1p h.1), mul_zero]
      have hx2 : 0 ≤ x2 := le_trans hx1 hx12
      by_cases hS2p : 0 < S2
      · rw [if_pos ⟨hS2p, hgap⟩]
        positivity
      · rw [if_neg (fun h => hS2p h.1), mul_zero]
  · rw [if_neg (fun h => hgap h.2), if_neg (fun h => hgap h.2), mul_zero, mul_zero]

/-- C3: with the baseline dict, all other comparison values, the positive
denominator and the gap held fixed, raising one code's
comparison-average-hours-per-day never decreases that code's attributed
percentage-point impact in the `build_code_delta_rows` →
`attribute_gap_to_codes` pipeline. -/
theorem c3_attribution_monotone (b c : List (String × ℚ)) (k : String) (v2 : ℚ)
    (D gap : ℚ) (days : Int) (hD : 0 < D) (hk : k ∈ c.map Prod.fst)
    (hv : (lookupAssoc c k).getD 0 ≤ v2) :
    attributedFor (attribute_gap_to_codes (build_code_delta_rows b c) D gap days) k ≤
      attributedFor
        (attribute_gap_to_codes (build_code_delta_rows b (dictSet c k v2)) D gap days) k := by
  have hDne : ¬ D ≤ 0 := not_le.mpr hD
  have hD0 : (0 : ℚ) ≤ D := hD.le
  have hkU : k ∈ unionCodes b c := mem_unionCodes_right b c k hk
  have hkU2 : k ∈ unionCodes b (dictSet c k v2) := by
    rw [unionCodes_dictSet]
    exact hkU
  rw [attributedFor_build b c D gap days hDne k hkU,
    attributedFor_build b (dictSet c k v2) D gap days hDne k hkU2]
  have hx1 : 0 ≤ rawOf b c D k := rawOf_nonneg b c D k hD
  have hx12 : rawOf b c D k ≤ rawOf b (dictSet c k v2) D k := by
    rw [rawOf, rawOf, lookup_dictSet_eq c k v2 hk]
    simp only [Option.getD_some]
    gcongr
  have hrest : 0 ≤ rawSumOf b c D - rawOf b c D k := by
    rw [rawSumOf, sum_split_at _ (unionCodes_nodup b c) k hkU]
    have hnn : 0 ≤ (((unionCodes b c).erase k).map (rawOf b c D)).sum := by
      refine List.sum_nonneg ?_
      intro x hx
      obtain ⟨y, hy, he⟩ := List.mem_map.mp hx
      rw [← he]
      exact rawOf_nonneg b c D y hD
    linarith
  have hsum2 := rawSumOf_dictSet b c D k v2 hk
  simp only [factorOf]
  exact attr_mono_arith _ _ _ _ gap hx1 hx12 hrest (by linarith)

/-- Witness for `c3_attribution_monotone` at a concrete instance. -/
theorem c3_attribution_monotone_witness :
    (0 : ℚ) < 20 ∧ "A" ∈ ([("A", (2 : ℚ))].map Prod.fst) ∧
      (lookupAssoc [("A", (2 : ℚ))] "A").getD 0 ≤ 3 ∧
      attributedFor
          (attribute_gap_to_codes (build_code_delta_rows [("A", (1 : ℚ))] [("A", (2 : ℚ))])
            20 5 28) "A" ≤
        attributedFor
          (attribute_gap_to_codes
            (build_code_delta_rows [("A", (1 : ℚ))] (dictSet [("A", (2 : ℚ))] "A" 3))
            20 5 28) "A" :=
  ⟨by norm_num, by simp, by norm_num [lookupAssoc],
    c3_attribution_monotone [("A", (1 : ℚ))] [("A", (2 : ℚ))] "A" 3 20 5 28
      (by norm_num) (by simp) (by norm_num [lookupAssoc])⟩
